import Mathlib

/-!
Verification development for the financial-dashboard repository
(HDFC statement parsers and the XLSX dashboard).

The Python sources are shallowly embedded:
  * strings become `List Char`;
  * monetary amounts become `Int` counted in hundredths (all amount tokens
    recognised by the statement line scanner carry exactly two decimals, so
    this representation is exact and preserves every comparison, sign test
    and subtraction the source performs on them);
  * fallible operations return `Option`.
-/

/-! ### Python-style string primitives -/

/-- The whitespace characters recognised by Python's `str.strip` and `\s`. -/
def isPySpace (c : Char) : Bool :=
  c = ' ' || c = '\t' || c = '\n' || c = '\r' || c = Char.ofNat 11 || c = Char.ofNat 12

/-- Python `str.strip()`: drop whitespace from both ends. -/
def pyStrip (l : List Char) : List Char :=
  ((l.dropWhile isPySpace).reverse.dropWhile isPySpace).reverse

/-- Python `str.lower()` (ASCII, which covers all text in this repository). -/
def pyLower (l : List Char) : List Char := l.map Char.toLower

/-- Python `str.upper()` (ASCII). -/
def pyUpper (l : List Char) : List Char := l.map Char.toUpper

/-- Python substring test `needle in hay`. -/
def subOf (needle : List Char) : List Char → Bool
  | [] => needle.isEmpty
  | c :: rest => needle.isPrefixOf (c :: rest) || subOf needle rest

/-- Python `str.rfind(sub)`: index of the last occurrence, `none` when absent. -/
def pyRfind (hay needle : List Char) : Option Nat :=
  ((List.range (hay.length + 1)).filter (fun i => needle.isPrefixOf (hay.drop i))).getLast?

/-- Single-character Python `str.find(c, start)`, as an index into the whole list. -/
def pyFindCharAux (c : Char) : List Char → Option Nat
  | [] => none
  | a :: rest => if a = c then some 0 else (pyFindCharAux c rest).map (· + 1)

/-- Python `str.find(c, start)` for a single-character needle. -/
def pyFindChar (l : List Char) (c : Char) (start : Nat) : Option Nat :=
  (pyFindCharAux c (l.drop start)).map (· + start)

/-- `re.sub(r"\s+", " ", s)` helper: collapse whitespace runs to one space.
`prev` records whether the previous character was whitespace. -/
def collapseWsAux : List Char → Bool → List Char
  | [], _ => []
  | c :: rest, prev =>
    if isPySpace c then
      if prev then collapseWsAux rest true else ' ' :: collapseWsAux rest true
    else c :: collapseWsAux rest false

/-- `re.sub(r"\s+", " ", s).strip()` as used on narrations. -/
def collapseWs (l : List Char) : List Char := pyStrip (collapseWsAux l false)

/-- Numeric value of a digit string (most significant first). -/
def digitsVal (l : List Char) : Nat :=
  l.foldl (fun a c => a * 10 + (c.toNat - 48)) 0

/-- Python `s.replace(",", "")`. -/
def removeCommas (l : List Char) : List Char := l.filter (fun c => c ≠ ',')

/-- Value in hundredths of an amount token `digits '.' d d` after comma
removal.  Every token found by the amount pattern has exactly two digits
after the dot, so this is the exact value of the Python `float`. -/
def parsePaise (tok : List Char) : Int :=
  let s := removeCommas tok
  let ip := s.takeWhile (fun c => c ≠ '.')
  let fp := (s.dropWhile (fun c => c ≠ '.')).drop 1
  (digitsVal ip * 100 + digitsVal fp : Int)

/-- `_clean_amount` of `statement_parser.py` on an amount token:
strip, drop commas, read the decimal. -/
def clean_amount (s : List Char) : Int := parsePaise (pyStrip s)

/-! ### The token extractor -/

/-- A character matched by the class `[\d,]`. -/
def isAmtChar (c : Char) : Bool := c.isDigit || c = ','

/-- Scanner for `re.findall(r"[\d,]+\.\d{2}", line)`: at each position try the
maximal `[\d,]+` run; a match needs a following `'.'` and two digits (the
run cannot backtrack into a successful match because `'.'` is outside the
class); on success scanning resumes after the match, otherwise one
character further.  `fuel` only bounds the recursion and is kept at least
the length of the list by every call. -/
def findAmountsGo : Nat → List Char → List (List Char)
  | 0, _ => []
  | _, [] => []
  | fuel + 1, c :: rest =>
    if isAmtChar c then
      let run := c :: rest.takeWhile isAmtChar
      match rest.drop (run.length - 1) with
      | '.' :: d1 :: d2 :: tail =>
        if d1.isDigit && d2.isDigit then
          (run ++ ['.', d1, d2]) :: findAmountsGo fuel tail
        else findAmountsGo fuel rest
      | _ => findAmountsGo fuel rest
    else findAmountsGo fuel rest

/-- All amount tokens of a line, leftmost first. -/
def findAmounts (l : List Char) : List (List Char) := findAmountsGo l.length l

/-- `amounts[-1-k]`: the `k`-th token counted from the right. -/
def nthEnd (l : List (List Char)) (k : Nat) : List Char := (l.reverse.drop k).headD []

/-- `re.match(r"^(\d{2}/\d{2}/\d{2})\s+", line)`: the eight-character date
token and the remainder of the line after the greedy whitespace run. -/
def matchDate (l : List Char) : Option (List Char × List Char) :=
  match l with
  | d1 :: d2 :: '/' :: m1 :: m2 :: '/' :: y1 :: y2 :: rest =>
    if d1.isDigit && d2.isDigit && m1.isDigit && m2.isDigit && y1.isDigit && y2.isDigit then
      match rest with
      | c :: _ =>
        if isPySpace c then some ([d1, d2, '/', m1, m2, '/', y1, y2], rest.dropWhile isPySpace)
        else none
      | [] => none
    else none
  | _ => none

/-! ### Calendar arithmetic shared by the date parsers -/

def isLeap (y : Nat) : Bool := (y % 4 = 0 && y % 100 ≠ 0) || y % 400 = 0

def daysInMonth (m y : Nat) : Nat :=
  if m = 2 then (if isLeap y then 29 else 28)
  else if m = 4 || m = 6 || m = 9 || m = 11 then 30
  else 31

def validDMY (d m y : Nat) : Bool :=
  1 ≤ m && m ≤ 12 && 1 ≤ d && d ≤ daysInMonth m y

/-- The `%y` two-digit-year pivot of CPython's `strptime` (also used by
pandas when a `%y` format is given): 00–68 land in the 2000s and 69–99 in
the 1900s. -/
def pivotTwoDigitYear (y : Nat) : Nat := if y ≤ 68 then 2000 + y else 1900 + y

/-- `datetime.strptime(date_str, '%d/%m/%y')` followed by the explicit
century fix `if dt.year < 2000: dt.replace(year=dt.year + 100)` shared by
`statement_parser._parse_date` and `analyzer.parse_transactions`;
`date.replace` revalidates the day, which the final check models.
Returns `(year, month, day)`. -/
def resolveTwoDigitDate (d m y : Nat) : Option (Nat × Nat × Nat) :=
  let yr0 := pivotTwoDigitYear y
  if validDMY d m yr0 then
    let yr := if yr0 < 2000 then yr0 + 100 else yr0
    if validDMY d m yr then some (yr, m, d) else none
  else none

/-- `pd.to_datetime(col, format="%d/%m/%y", errors="coerce")` as applied by
`statement_parser.to_dataframe`: the `%y` pivot with no century fix;
unparseable input coerces to `NaT` (`none`). -/
def to_dataframe_date (d m y : Nat) : Option (Nat × Nat × Nat) :=
  let yr := pivotTwoDigitYear y
  if validDMY d m yr then some (yr, m, d) else none

/-- Numeric fields of an eight-character `DD/MM/YY` token. -/
def dateTokenFields (tok : List Char) : Option (Nat × Nat × Nat) :=
  match tok with
  | [d1, d2, _, m1, m2, _, y1, y2] =>
    some (digitsVal [d1, d2], digitsVal [m1, m2], digitsVal [y1, y2])
  | _ => none

/-! ### `statement_parser._parse_transactions_from_text`

The text-fallback reconstructor of `statement_parser.py`.  Its records keep
every field as the raw string the source stores (`""` for an absent
amount), exactly like the Python dicts. -/

structure PTxn where
  date : List Char
  narration : List Char
  ref : List Char
  value_dt : List Char
  withdrawn : List Char
  deposit : List Char
  balance : List Char
deriving DecidableEq

/-- Administrative boilerplate skipped by `_parse_transactions_from_text`. -/
def isAdminLineP (l : List Char) : Bool :=
  subOf ("Statement of account".toList) l || subOf ("Page No".toList) l ||
    subOf ("Account Branch".toList) l

/-- The column-header test of `_parse_transactions_from_text`. -/
def isHeaderLineP (l : List Char) : Bool :=
  subOf ("Date".toList) l && subOf ("Narration".toList) l && subOf ("Closing".toList) l

/-- The narration-trimming loop: for each amount token, rightmost first,
truncate at its last occurrence and strip. -/
def stripAmounts (s : List Char) (amounts : List (List Char)) : List Char :=
  amounts.reverse.foldl
    (fun acc a =>
      match pyRfind acc a with
      | some i => pyStrip (acc.take i)
      | none => acc)
    s

/-- One iteration of the `_parse_transactions_from_text` loop on an already
stripped, non-empty line: returns the new open transaction and the records
emitted by this step. -/
def pStep (cur : Option PTxn) (line : List Char) : Option PTxn × List PTxn :=
  if isAdminLineP line then (cur, [])
  else if isHeaderLineP line then (cur, [])
  else
    match matchDate line with
    | some (date_str, rest) =>
      let emitted :=
        match cur with
        | some t => if t.balance ≠ [] then [t] else []
        | none => []
      let amounts := findAmounts rest
      if amounts.length ≥ 1 then
        let balance := removeCommas (nthEnd amounts 0)
        let wd :=
          if amounts.length ≥ 3 then
            (removeCommas (nthEnd amounts 2), removeCommas (nthEnd amounts 1))
          else if amounts.length = 2 then
            let a := removeCommas (amounts.headD [])
            if clean_amount (amounts.headD []) > clean_amount (nthEnd amounts 0) then
              (a, []) else ([], a)
          else ([], [])
        let narration := collapseWs (stripAmounts rest amounts)
        (some ⟨date_str, narration, [], date_str, wd.1, wd.2, balance⟩, emitted)
      else (none, emitted)
    | none =>
      match cur with
      | some t =>
        let amounts := findAmounts line
        if amounts.length ≥ 2 then
          let t1 := { t with balance := removeCommas (nthEnd amounts 0) }
          let t2 :=
            if amounts.length ≥ 3 then
              { t1 with withdrawn := removeCommas (nthEnd amounts 2),
                        deposit := removeCommas (nthEnd amounts 1) }
            else t1
          let rest := stripAmounts line amounts
          (some { t2 with narration := t2.narration ++ ' ' :: rest }, [])
        else (some { t with narration := t.narration ++ ' ' :: line }, [])
      | none => (none, [])

/-- Folding `pStep` over the lines; at end of input the open transaction is
emitted when its balance string is truthy (non-empty). -/
def pGo (cur : Option PTxn) : List (List Char) → List PTxn
  | [] =>
    match cur with
    | some t => if t.balance ≠ [] then [t] else []
    | none => []
  | l :: rest =>
    let s := pStep cur l
    s.2 ++ pGo s.1 rest

/-- `_parse_transactions_from_text`: lines are stripped and blank lines
discarded before the loop runs. -/
def parse_transactions_from_text (lines : List (List Char)) : List PTxn :=
  pGo none ((lines.map pyStrip).filter (fun l => l ≠ []))

/-! ### `AccountStatementAnalyzer.parse_transactions`

The reconstructor of `analyzer.py`.  Amounts are parsed to numbers at once
(`Int` hundredths here) and the 2-token case records a pending
`transaction_amt`; `raw_line` is kept as in the source dict. -/

structure ATxn where
  year : Nat
  month : Nat
  day : Nat
  description : List Char
  debit : Int
  credit : Int
  balance : Int
  transaction_amt : Option Int
  raw_line : List Char
deriving DecidableEq

/-- The column-header test of `analyzer.parse_transactions`. -/
def isHeaderLineA (l : List Char) : Bool :=
  subOf ("Date".toList) l && subOf ("Narration".toList) l && subOf ("Withdrawal".toList) l

/-- The boilerplate tests of `analyzer.parse_transactions`. -/
def isAdminLineA (l : List Char) : Bool :=
  subOf ("Statement of account".toList) l || subOf ("Account Branch".toList) l

/-- One iteration of the first pass of `analyzer.parse_transactions` on a raw
line: the line is stripped in the loop body; blank, header and boilerplate
lines are skipped; a `strptime` failure wipes the open transaction; a
date line with fewer than two amounts appends the line text to the record
appended just before (the source mutates the dict already stored in the
output list) and closes it. -/
def aStep (cur : Option ATxn) (rawLine : List Char) : Option ATxn × List ATxn :=
  let line := pyStrip rawLine
  if line = [] then (cur, [])
  else if isHeaderLineA line then (cur, [])
  else if isAdminLineA line then (cur, [])
  else if ("Page No".toList).isPrefixOf line then (cur, [])
  else
    match matchDate line with
    | some (date_str, rest) =>
      let emitted := cur.toList
      match dateTokenFields date_str with
      | none => (none, emitted)
      | some (d, m, y) =>
        match resolveTwoDigitDate d m y with
        | none => (none, emitted)
        | some (yr, mo, dy) =>
          let amounts := findAmounts line
          if amounts.length ≥ 2 then
            let balance := parsePaise (nthEnd amounts 0)
            let desc := stripAmounts (pyStrip rest) amounts
            if amounts.length = 2 then
              (some ⟨yr, mo, dy, desc, 0, 0, balance,
                      some (parsePaise (amounts.headD [])), line⟩, emitted)
            else
              (some ⟨yr, mo, dy, desc, parsePaise (nthEnd amounts 1),
                      parsePaise (nthEnd amounts 2), balance, none, line⟩, emitted)
          else
            match cur with
            | some t => (none, [{ t with description := t.description ++ ' ' :: line }])
            | none => (none, [])
    | none =>
      match cur with
      | some t =>
        let amounts := findAmounts line
        if amounts.length ≥ 2 then
          let t1 := { t with balance := parsePaise (nthEnd amounts 0) }
          if amounts.length = 2 then
            (some { t1 with transaction_amt := some (parsePaise (amounts.headD [])) }, [])
          else
            (some { t1 with debit := parsePaise (nthEnd amounts 1),
                            credit := parsePaise (nthEnd amounts 2) }, [])
        else (some { t with description := t.description ++ ' ' :: line }, [])
      | none => (none, [])

/-- Folding `aStep` over the raw lines; the last open transaction is always
emitted. -/
def aGo (cur : Option ATxn) : List (List Char) → List ATxn
  | [] => cur.toList
  | l :: rest =>
    let s := aStep cur l
    s.2 ++ aGo s.1 rest

/-- First pass of `analyzer.parse_transactions`. -/
def aFirstPass (lines : List (List Char)) : List ATxn := aGo none lines

/-- Second pass of `analyzer.parse_transactions`: the balance-delta
back-fill, walking the reconstructed records in the order of the first
pass, threading the previous record's balance. -/
def backfill (prev : Option Int) : List ATxn → List ATxn
  | [] => []
  | t :: rest =>
    let t1 :=
      match t.transaction_amt with
      | some amt =>
        if t.debit = 0 ∧ t.credit = 0 then
          match prev with
          | some pb =>
            if t.balance - pb < 0 then
              { t with debit := |t.balance - pb|, transaction_amt := none }
            else
              { t with credit := |t.balance - pb|, transaction_amt := none }
          | none => { t with debit := amt, transaction_amt := none }
        else t
      | none => t
    t1 :: backfill (some t.balance) rest

/-- `analyzer.parse_transactions` on the text split into lines: first pass
then balance-delta back-fill, all before any date sorting (the sort by
date happens later, in `load_data`). -/
def parse_transactions (lines : List (List Char)) : List ATxn :=
  backfill none (aFirstPass lines)

/-! ### `dashboard.py` — cells and rows of the tabular path

A spreadsheet cell is either missing (`NaN`/`None`), a string, a number
(monetary cells, in hundredths), or a datetime value.  Narration cells are
text or missing.  Reading cells and coercing arbitrary strings or numbers
to datetimes is the external pandas capability the spec places outside the
core; the date parser below therefore handles exactly the two cases the
embedded claims exercise: datetime-typed cells parse to themselves and
missing or blank cells fail. -/

inductive Cell where
  | none
  | str (s : List Char)
  | num (paise : Int)
  | date (d : Nat)
deriving DecidableEq

/-- A normalized spreadsheet row before the continuation merge
(`date`, `narration`, `debit`, `credit`, `balance`). -/
structure XRow where
  date : Cell
  narration : Option (List Char)
  debit : Cell
  credit : Cell
  balance : Cell
deriving DecidableEq

/-- A row after `_merge_narration_rows`: the narration is always a string. -/
structure MRow where
  date : Cell
  narration : List Char
  debit : Cell
  credit : Cell
  balance : Cell
deriving DecidableEq

/-- A fully typed transaction row after `_process_norm`. -/
structure TxnRow where
  date : Nat
  narration : List Char
  debit : Int
  credit : Int
  balance : Int
deriving DecidableEq

/-- `_has_date_value`: `False` on `NaN` and on strings whose stripped
lowercase form is `""`, `"nan"`, `"nat"` or `"none"`; numbers and datetime
values print as none of these. -/
def has_date_value (c : Cell) : Bool :=
  match c with
  | Cell.none => false
  | Cell.str s =>
    let t := pyLower (pyStrip s)
    ¬(t = [] || t = ("nan".toList) || t = ("nat".toList) || t = ("none".toList))
  | Cell.num _ => true
  | Cell.date _ => true

/-- The narration normalization on a date-bearing row of
`_merge_narration_rows`: `""` when missing or blank, otherwise stripped. -/
def startNarr (n : Option (List Char)) : List Char :=
  match n with
  | Option.none => []
  | Option.some s => pyStrip s

/-- The loop of `_merge_narration_rows` with the open transaction threaded
through. -/
def mergeAux (cur : Option MRow) : List XRow → List MRow
  | [] => cur.toList
  | r :: rest =>
    if has_date_value r.date then
      let newCur : MRow := ⟨r.date, startNarr r.narration, r.debit, r.credit, r.balance⟩
      match cur with
      | some c => c :: mergeAux (some newCur) rest
      | none => mergeAux (some newCur) rest
    else
      match cur with
      | some c =>
        let c1 :=
          match r.narration with
          | Option.some s =>
            if pyStrip s ≠ [] then { c with narration := c.narration ++ pyStrip s } else c
          | Option.none => c
        mergeAux (some c1) rest
      | none => mergeAux none rest

/-- `_merge_narration_rows`. -/
def merge_narration_rows (rows : List XRow) : List MRow := mergeAux none rows

/-- `_parse_date` of `dashboard.py` restricted to the modelled cells:
datetime values pass through, missing and blank cells fail (pandas string
and number coercion is the external capability noted above). -/
def dash_parse_date (c : Cell) : Option Nat :=
  match c with
  | Cell.date d => some d
  | _ => none

/-- `_parse_amount` of `dashboard.py` on the modelled cells: missing is
`0.0`, numbers pass through; a string is stripped, de-commaed and read as
a decimal when it has the `digits ['.' digits]` shape (sub-hundredth
precision does not arise in statement data), anything else is `0.0`. -/
def dash_parse_amount (c : Cell) : Int :=
  match c with
  | Cell.none => 0
  | Cell.num q => q
  | Cell.str s =>
    let t := removeCommas (pyStrip s)
    if t ≠ [] && t.all (fun c => c.isDigit || c = '.') &&
        (t.filter (fun c => c = '.')).length ≤ 1 &&
        ((t.dropWhile (fun c => c ≠ '.')).drop 1).length ≤ 2 then
      parsePaise t
    else 0
  | Cell.date _ => 0

/-- `_process_norm`: type the date column and drop rows whose date fails to
parse, then type the amount columns (the narration is already a string
after the merge). -/
def process_norm (rows : List MRow) : List TxnRow :=
  rows.filterMap
    (fun r =>
      match dash_parse_date r.date with
      | some d =>
        some ⟨d, r.narration, dash_parse_amount r.debit, dash_parse_amount r.credit,
               dash_parse_amount r.balance⟩
      | none => Option.none)

/-- One sheet of `load_xlsx_all_sheets` after column normalization: the
continuation merge runs first, the date/amount typing second. -/
def loadSheetRows (rows : List XRow) : List TxnRow :=
  process_norm (merge_narration_rows rows)

/-! ### `dashboard.py` — the classifier layer -/

/-- `_upi_customer_id`. -/
def upi_customer_id (narration : List Char) : Option (List Char) :=
  let n := pyStrip narration
  if ("UPI".toList).isPrefixOf (pyUpper n) then
    match pyFindChar n '-' 0 with
    | Option.none => some n
    | Option.some first =>
      match pyFindChar n '-' (first + 1) with
      | Option.none => some n
      | Option.some second => some (n.take second)
  else none

/-- `_neft_customer_id`. -/
def neft_customer_id (narration : List Char) : Option (List Char) :=
  let n := pyStrip narration
  if ("NEFT".toList).isPrefixOf (pyUpper n) then
    match pyFindChar n '-' 0 with
    | Option.none => some n
    | Option.some first =>
      match pyFindChar n '-' (first + 1) with
      | Option.none => some n
      | Option.some second => some (n.take second)
  else none

/-- `_imps_customer_id`. -/
def imps_customer_id (narration : List Char) : Option (List Char) :=
  let n := pyStrip narration
  if ("IMPS".toList).isPrefixOf (pyUpper n) then
    match pyFindChar n '-' 0 with
    | Option.none => some n
    | Option.some first =>
      match pyFindChar n '-' (first + 1) with
      | Option.none => some n
      | Option.some second =>
        match pyFindChar n '-' (second + 1) with
        | Option.none => some n
        | Option.some third => some ((n.take third).drop (second + 1))
  else none

/-- `_excluded_from_expense`: withdrawals whose stripped, upper-cased
narration starts with the fixed internal-transfer code. -/
def excluded_from_expense (narration : List Char) : Bool :=
  ("NEFT DR-CNRB0002374".toList).isPrefixOf (pyUpper (pyStrip narration))

/-- `_expense_mask` applied to a row. -/
def expenseRow (r : TxnRow) : Bool :=
  0 < r.debit && ¬excluded_from_expense r.narration

/-- The rows cost-head classification operates on. -/
def expenseRows (rows : List TxnRow) : List TxnRow := rows.filter expenseRow

/-- `COST_HEADS` of `dashboard.py`, order preserved. -/
def COST_HEADS : List (List Char × List (List Char)) :=
  [ (("Salary").toList,
      [("salary").toList, ("advanc").toList, ("salar").toList, ("bisheshar").toList,
       ("radheshyam").toList, ("shiv ram").toList, ("sanjay").toList, ("harsh").toList,
       ("pyare").toList, ("somwati").toList, ("surinder").toList, ("sikander").toList,
       ("amit").toList, ("bimal").toList, ("mayank").toList, ("sheetla").toList,
       ("prahlad").toList, ("CNRB0000103").toList]),
    (("Feed").toList,
      [("feed").toList, ("tudi").toList, ("ganna").toList, ("rakesh").toList,
       ("seed").toList, ("atta").toList, ("mineral").toList, ("chokar").toList,
       ("HARDEEPSINGH").toList]),
    (("Rent").toList, [("rent").toList]),
    (("Fuel and Transportation").toList,
      [("gas").toList, ("refill").toList, ("petrol").toList, ("cylinder").toList,
       ("auto").toList, ("service").toList, ("transport").toList, ("filling").toList,
       ("fuel").toList, ("bike").toList]),
    (("Expansion (cow, fridge)").toList,
      [("cow").toList, ("refrig").toList, ("crockery").toList]),
    (("Marketing").toList, [("print").toList, ("adver").toList]),
    (("Loan, CC").toList, [("loan").toList, ("credit").toList]),
    (("Miscellaneous").toList,
      [("ration").toList, ("fee").toList, ("medical").toList, ("ghee").toList,
       ("fees").toList, ("netflix").toList, ("amazon").toList, ("blinkit").toList,
       ("swiggy").toList, ("airtel").toList, ("jio").toList, ("vikram").toList,
       ("ROOPBASANT").toList]) ]

/-- `_assign_cost_head`: first category whose keyword set has a
case-insensitive substring match against the lowercased narration;
`"Other"` when none matches. -/
def assign_cost_head (narration : List Char) : List Char :=
  let text := pyLower narration
  match COST_HEADS.find? (fun p => p.2.any (fun kw => subOf (pyLower kw) text)) with
  | some p => p.1
  | none => ("Other").toList

/-! ### `dashboard.py` — column normalization -/

def dateAliases : List (List Char) :=
  [("Date").toList, ("date").toList, ("DATE").toList]

def narrationAliases : List (List Char) :=
  [("Narration").toList, ("narration").toList, ("NARRATION").toList]

def withdrawnAliases : List (List Char) :=
  [("Withdrawal Amt.").toList, ("Withdrawal Amt").toList, ("Withdrawn Amt.").toList,
   ("Withdrawn Amt").toList, ("Withdrawal").toList, ("Debit").toList]

def depositAliases : List (List Char) :=
  [("Deposit Amt.").toList, ("Deposit Amt").toList, ("Deposit").toList, ("Credit").toList]

def balanceAliases : List (List Char) :=
  [("Closing Balance").toList, ("Closing Bal").toList, ("Balance").toList]

/-- `_normalize`: strip and lowercase. -/
def normKey (s : List Char) : List Char := pyLower (pyStrip s)

/-- `_find_column`: first column matching any alias, aliases outermost,
columns in sheet order, a pair matching when the normalized forms are
equal or one contains the other. -/
def find_column (columns : List (List Char)) (aliases : List (List Char)) :
    Option (List Char) :=
  aliases.findSome?
    (fun al =>
      let key := normKey al
      columns.find?
        (fun col =>
          let cn := normKey col
          key = cn || subOf key cn || subOf cn key))

/-- Python-dict assignment `mapping[col] = field`: overwrite an existing
key, otherwise append. -/
def dictInsert (m : List (List Char × List Char)) (k v : List Char) :
    List (List Char × List Char) :=
  if m.any (fun p => p.1 = k) then
    m.map (fun p => if p.1 = k then (k, v) else p)
  else m ++ [(k, v)]

/-- Optionally record a resolved column. -/
def addMapping (m : List (List Char × List Char)) (found : Option (List Char))
    (field : List Char) : List (List Char × List Char) :=
  match found with
  | some c => dictInsert m c field
  | none => m

/-- The mapping `_normalize_columns` builds, in source order
(date, narration, debit, credit, balance). -/
def buildMapping (columns : List (List Char)) : List (List Char × List Char) :=
  let m := addMapping [] (find_column columns dateAliases) (("date").toList)
  let m := addMapping m (find_column columns narrationAliases) (("narration").toList)
  let m := addMapping m (find_column columns withdrawnAliases) (("debit").toList)
  let m := addMapping m (find_column columns depositAliases) (("credit").toList)
  addMapping m (find_column columns balanceAliases) (("balance").toList)

/-- `_normalize_columns` reduced to its decision: the mapping when the
required canonical names `{date, debit, credit}` all appear among the
assigned values, otherwise `none` (the unusable-sheet signal). -/
def normalize_columns (columns : List (List Char)) :
    Option (List (List Char × List Char)) :=
  let m := buildMapping columns
  if (("date").toList ∈ m.map Prod.snd) ∧ (("debit").toList ∈ m.map Prod.snd) ∧
      (("credit").toList ∈ m.map Prod.snd) then
    some m
  else none

/-! ### Auxiliary definitions for the theorems -/

/-- Whether `a`'s date is on or before `b`'s. -/
def dateLe (a b : ATxn) : Bool :=
  a.year < b.year || (a.year = b.year &&
    (a.month < b.month || (a.month = b.month && a.day ≤ b.day)))

/-- Stable insertion keeping earlier-inserted records first on date ties. -/
def insertByDate (t : ATxn) : List ATxn → List ATxn
  | [] => [t]
  | h :: rest => if dateLe h t then h :: insertByDate t rest else t :: h :: rest

/-- Modelled from the spec: the "date-sorted-then-source" order the claim
prescribes for the back-fill pass — a stable sort by date with ties kept
in source order.  The source never performs this sort before the
back-fill; it is defined here only to state the counterexample. -/
def dateSortedThenSource (ts : List ATxn) : List ATxn :=
  ts.foldl (fun acc t => insertByDate t acc) []

/-- The non-narration fields of a merged row. -/
def mFrame (r : MRow) : Cell × Cell × Cell × Cell := (r.date, r.debit, r.credit, r.balance)

/-- The non-narration fields of an input row. -/
def xFrame (r : XRow) : Cell × Cell × Cell × Cell := (r.date, r.debit, r.credit, r.balance)


/-! ### Helper lemmas -/

theorem nthEnd_append3_0 (as : List (List Char)) (x y z : List Char) :
    nthEnd (as ++ [x, y, z]) 0 = z := by
  simp [nthEnd]

theorem nthEnd_append3_1 (as : List (List Char)) (x y z : List Char) :
    nthEnd (as ++ [x, y, z]) 1 = y := by
  simp [nthEnd]

theorem nthEnd_append3_2 (as : List (List Char)) (x y z : List Char) :
    nthEnd (as ++ [x, y, z]) 2 = x := by
  simp [nthEnd]

theorem nthEnd_pair_0 (a b : List Char) : nthEnd [a, b] 0 = b := by
  simp [nthEnd]

theorem find_first_of_split {α : Type} (f : α → Bool) (pre : List α) (a : α) (suf : List α)
    (hpre : ∀ x ∈ pre, f x = false) (ha : f a = true) :
    List.find? f (pre ++ a :: suf) = some a := by
  induction pre with
  | nil => simp [List.find?, ha]
  | cons p ps ih =>
    have hp : f p = false := hpre p (by simp)
    simp only [List.cons_append, List.find?, hp]
    exact ih (fun x hx => hpre x (by simp [hx]))

/-- Appending an update with a key distinct from all present keys. -/
theorem dictInsert_fresh (m : List (List Char × List Char)) (k v : List Char)
    (h : ∀ p ∈ m, p.1 ≠ k) : dictInsert m k v = m ++ [(k, v)] := by
  unfold dictInsert
  rw [if_neg]
  intro hc
  simp only [List.any_eq_true, decide_eq_true_eq] at hc
  obtain ⟨p, hp, hpk⟩ := hc
  exact h p hp hpk

theorem mem_snd_dictInsert {m : List (List Char × List Char)} {k v x : List Char}
    (h : x ∈ (dictInsert m k v).map Prod.snd) : x = v ∨ x ∈ m.map Prod.snd := by
  unfold dictInsert at h
  split at h
  · simp only [List.map_map, List.mem_map, Function.comp] at h
    obtain ⟨p, hp, hx⟩ := h
    by_cases hk : p.1 = k
    · simp [hk] at hx; exact Or.inl hx.symm
    · simp [hk] at hx; exact Or.inr (List.mem_map.mpr ⟨p, hp, hx⟩)
  · simp only [List.map_append, List.mem_append, List.map_cons, List.map_nil,
      List.mem_cons, List.not_mem_nil, or_false] at h
    exact h.symm

theorem mem_snd_addMapping {m : List (List Char × List Char)}
    {found : Option (List Char)} {field x : List Char}
    (h : x ∈ (addMapping m found field).map Prod.snd) :
    (x = field ∧ found ≠ none) ∨ x ∈ m.map Prod.snd := by
  cases found with
  | none => exact Or.inr h
  | some c =>
    rcases mem_snd_dictInsert h with h1 | h1
    · exact Or.inl ⟨h1, by simp⟩
    · exact Or.inr h1

/-! ### Claim C8 — two-digit year resolution -/

/-- Claim C8, amended: a valid two-digit year `Y` parsed from a `DD/MM/YY`
token resolves to calendar year `2000 + Y` in the parsers that apply the
explicit century fix (`statement_parser._parse_date` and
`analyzer.parse_transactions`); in `to_dataframe`'s
`pd.to_datetime(..., format="%d/%m/%y")` coercion, which has no such fix,
the resolved year is `2000 + Y` only for `Y ≤ 68`, while `Y ∈ 69..99`
resolves to `1900 + Y`. -/
theorem c8_two_digit_year_resolution (d m y : Nat) (hy : y ≤ 99) :
    (∀ yr mo dd, resolveTwoDigitDate d m y = some (yr, mo, dd) → yr = 2000 + y) ∧
    (∀ yr mo dd, to_dataframe_date d m y = some (yr, mo, dd) →
      (y ≤ 68 → yr = 2000 + y) ∧ (69 ≤ y → yr = 1900 + y)) := by
  constructor
  · intro yr mo dd h
    simp only [resolveTwoDigitDate, pivotTwoDigitYear] at h
    split_ifs at h <;>
      first
        | exact Option.noConfusion h
        | · simp only [Option.some.injEq, Prod.mk.injEq] at h
            omega
  · intro yr mo dd h
    simp only [to_dataframe_date, pivotTwoDigitYear] at h
    split_ifs at h <;>
      first
        | exact Option.noConfusion h
        | · simp only [Option.some.injEq, Prod.mk.injEq] at h
            refine ⟨fun _ => ?_, fun _ => ?_⟩ <;> omega

/-- Counterexample to claim C8 as stated: the `to_dataframe` coercion path
(cited by the claim) resolves the valid token year `69` to `1969`,
which is `1900 + 69` and not `2000 + 69`. -/
theorem c8_counterexample :
    to_dataframe_date 1 1 69 = some (1969, 1, 1) ∧ 1969 = 1900 + 69 ∧ 1969 ≠ 2000 + 69 := by
  decide

/-- Witness for `c8_two_digit_year_resolution` at day 1, month 4, year
token 23. -/
theorem c8_witness : resolveTwoDigitDate 1 4 23 = some (2023, 4, 1) ∧ 2023 = 2000 + 23 := by
  refine ⟨by decide, ?_⟩
  exact (c8_two_digit_year_resolution 1 4 23 (by decide)).1 2023 4 1 (by decide)

/-! ### Claim C2 — the balance-delta back-fill pass -/

/-- Claim C2, amended: the balance-delta back-fill runs inside
`parse_transactions`, immediately after the line scan and strictly before
the global date sort of `load_data`, walking the records in
reconstruction (source) order; "previous record" means the previous
record in that order.  For a record the 2-token path left with
`debit = credit = 0` and a recorded `transaction_amt`, the pass sets
`debit = |balance − previous balance|` when the delta is negative and
otherwise `credit = |delta|`; with no previous record it sets
`debit = transaction_amt`.  The single input line
`"01/04/23 SALARY TRANSFER TO STAFF 50,000.00 1,00,000.00"` with no
preceding record yields one record with withdrawal 50000.00 and closing
balance 100000.00. -/
theorem c2_backfill_source_order :
    (∀ (pb : Int) (t : ATxn) (rest : List ATxn) (amt : Int),
      t.transaction_amt = some amt → t.debit = 0 → t.credit = 0 →
      backfill (some pb) (t :: rest) =
        (if t.balance - pb < 0 then
          { t with debit := |t.balance - pb|, transaction_amt := none }
        else
          { t with credit := |t.balance - pb|, transaction_amt := none }) ::
          backfill (some t.balance) rest) ∧
    (∀ (t : ATxn) (rest : List ATxn) (amt : Int),
      t.transaction_amt = some amt → t.debit = 0 → t.credit = 0 →
      backfill none (t :: rest) =
        { t with debit := amt, transaction_amt := none } ::
          backfill (some t.balance) rest) ∧
    (∀ lines, parse_transactions lines = backfill none (aFirstPass lines)) ∧
    parse_transactions
        [("01/04/23 SALARY TRANSFER TO STAFF 50,000.00 1,00,000.00").toList] =
      [⟨2023, 4, 1, ("SALARY TRANSFER TO STAFF").toList, 5000000, 0, 10000000, none,
        ("01/04/23 SALARY TRANSFER TO STAFF 50,000.00 1,00,000.00").toList⟩] := by
  refine ⟨?_, ?_, fun _ => rfl, by decide⟩
  · intro pb t rest amt ha hd hc
    simp [backfill, ha, hd, hc]
  · intro t rest amt ha hd hc
    simp [backfill, ha, hd, hc]

/-- Counterexample to claim C2 as stated: on the two lines
`"05/04/23 A 10.00 20.00 500.00"` then `"01/04/23 B 200.00 800.00"`, the
code back-fills in source order, so the date-minimal 01/04 record (which
under the claim's date-sorted-then-source order has no preceding record
and would receive the first-transaction withdrawal fallback 200.00) is
instead given deposit 300.00 from the balance of the later-dated source
predecessor; running the pass on the date-sorted sequence, as the claim
prescribes, produces a different record set. -/
theorem c2_counterexample :
    (parse_transactions
        [("05/04/23 A 10.00 20.00 500.00").toList,
         ("01/04/23 B 200.00 800.00").toList]).map
      (fun t => (t.year, t.month, t.day, t.debit, t.credit)) =
      [(2023, 4, 5, 2000, 1000), (2023, 4, 1, 0, 30000)] ∧
    (backfill none (dateSortedThenSource (aFirstPass
        [("05/04/23 A 10.00 20.00 500.00").toList,
         ("01/04/23 B 200.00 800.00").toList]))).map
      (fun t => (t.year, t.month, t.day, t.debit, t.credit)) =
      [(2023, 4, 1, 20000, 0), (2023, 4, 5, 2000, 1000)] ∧
    (20000 : Int) ≠ 0 := by
  decide

/-- Witness for `c2_backfill_source_order`: the first-record fallback at a
concrete record. -/
theorem c2_witness :
    backfill none [⟨2023, 4, 1, ("B").toList, 0, 0, 80000, some 20000, []⟩] =
      [⟨2023, 4, 1, ("B").toList, 20000, 0, 80000, none, []⟩] := by
  have h := c2_backfill_source_order.2.1
    ⟨2023, 4, 1, ("B").toList, 0, 0, 80000, some 20000, []⟩ [] 20000 rfl rfl rfl
  exact h.trans (by decide)

/-! ### Claims C10 and C7 — the tabular continuation merge -/

theorem mergeAux_map_frame (rows : List XRow) :
    ∀ cur : Option MRow,
      (mergeAux cur rows).map mFrame =
        cur.toList.map mFrame ++
          (rows.filter (fun r => has_date_value r.date)).map xFrame := by
  induction rows with
  | nil => intro cur; simp [mergeAux]
  | cons r rest ih =>
    intro cur
    by_cases hd : has_date_value r.date
    · cases cur with
      | none => simp [mergeAux, hd, ih, mFrame, xFrame]
      | some c => simp [mergeAux, hd, ih, mFrame, xFrame]
    · cases cur with
      | none => simp [mergeAux, hd, ih]
      | some c =>
        simp only [mergeAux, hd, if_false, Bool.false_eq_true]
        cases hn : r.narration with
        | none => simp [ih, hd]
        | some s =>
          by_cases hs : pyStrip s = []
          · simp [hs, ih, hd]
          · simp [hs, ih, hd, mFrame]

/-- Claim C10: merging a dateless continuation row changes only the
narration — the merged transactions are in one-to-one order-preserving
correspondence with the date-bearing input rows and agree with them on
date, debit, credit and balance (amounts on continuation rows are
discarded), and dateless rows arriving before any date-bearing row
contribute nothing to the output. -/
theorem c10_merge_frame_only :
    (∀ rows : List XRow,
      (merge_narration_rows rows).map mFrame =
        (rows.filter (fun r => has_date_value r.date)).map xFrame) ∧
    (∀ pre rest : List XRow, (∀ r ∈ pre, has_date_value r.date = false) →
      merge_narration_rows (pre ++ rest) = merge_narration_rows rest) := by
  constructor
  · intro rows
    simpa using mergeAux_map_frame rows none
  · intro pre rest hpre
    induction pre with
    | nil => simp
    | cons r ps ih =>
      have hr : has_date_value r.date = false := hpre r (by simp)
      have ih2 := ih (fun x hx => hpre x (by simp [hx]))
      simp only [merge_narration_rows, List.cons_append, mergeAux, hr,
        Bool.false_eq_true, if_false] at ih2 ⊢
      exact ih2

/-- Witness for `c10_merge_frame_only`: a leading dateless row contributes
nothing. -/
theorem c10_witness :
    merge_narration_rows
        [⟨Cell.none, some (("stray").toList), Cell.num 100, Cell.none, Cell.none⟩,
         ⟨Cell.date 20230401, some (("Payment").toList), Cell.num 500, Cell.none,
           Cell.num 900⟩] =
      merge_narration_rows
        [⟨Cell.date 20230401, some (("Payment").toList), Cell.num 500, Cell.none,
           Cell.num 900⟩] := by
  have h := c10_merge_frame_only.2
    [⟨Cell.none, some (("stray").toList), Cell.num 100, Cell.none, Cell.none⟩]
    [⟨Cell.date 20230401, some (("Payment").toList), Cell.num 500, Cell.none,
       Cell.num 900⟩]
    (by intro r hr; simp at hr; subst hr; decide)
  exact h

/-- Claim C7: in the tabular path a row with an empty/blank/null-like date
cell is merged into the open transaction, its (stripped) narration text
appended by plain concatenation with no separator; the merge runs before
date/amount coercion (`loadSheetRows` is by definition
`process_norm ∘ merge_narration_rows`), so the open transaction with
narration `"Payment to"` followed by a blank-date row with narration
`"XYZ corp"` survives date typing with merged narration
`"Payment toXYZ corp"`. -/
theorem c7_continuation_append :
    (∀ (c : MRow) (r : XRow) (rest : List XRow),
      has_date_value r.date = false →
      mergeAux (some c) (r :: rest) =
        mergeAux (some { c with narration := c.narration ++ startNarr r.narration }) rest) ∧
    (∀ rows, loadSheetRows rows = process_norm (merge_narration_rows rows)) ∧
    loadSheetRows
        [⟨Cell.date 20230401, some (("Payment to").toList), Cell.none, Cell.none, Cell.none⟩,
         ⟨Cell.str [], some (("XYZ corp").toList), Cell.none, Cell.none, Cell.none⟩] =
      [⟨20230401, ("Payment toXYZ corp").toList, 0, 0, 0⟩] := by
  refine ⟨?_, fun _ => rfl, by decide⟩
  intro c r rest hd
  simp only [mergeAux, hd, Bool.false_eq_true, if_false]
  cases hn : r.narration with
  | none =>
    simp only [startNarr]
    congr 1
    cases c
    simp
  | some s =>
    by_cases hs : pyStrip s = []
    · simp only [hs, startNarr, ne_eq, not_true_eq_false, if_false]
      congr 1
      cases c
      simp [hs]
    · simp [hs, startNarr]

/-- Witness for `c7_continuation_append` at a concrete open transaction and
blank-date row. -/
theorem c7_witness :
    mergeAux (some ⟨Cell.date 1, ("Payment to").toList, Cell.none, Cell.none, Cell.none⟩)
        [⟨Cell.none, some (("XYZ corp").toList), Cell.none, Cell.none, Cell.none⟩] =
      [⟨Cell.date 1, ("Payment toXYZ corp").toList, Cell.none, Cell.none, Cell.none⟩] := by
  have h := c7_continuation_append.1
    ⟨Cell.date 1, ("Payment to").toList, Cell.none, Cell.none, Cell.none⟩
    ⟨Cell.none, some (("XYZ corp").toList), Cell.none, Cell.none, Cell.none⟩
    [] (by decide)
  exact h.trans (by decide)

/-! ### Step lemmas for the two line reconstructors -/

theorem pStep_date_ge3 (cur : Option PTxn) (line ds rest : List Char)
    (as : List (List Char)) (x y z : List Char)
    (hAdmin : isAdminLineP line = false) (hHead : isHeaderLineP line = false)
    (hDate : matchDate line = some (ds, rest))
    (hAmt : findAmounts rest = as ++ [x, y, z]) :
    (pStep cur line).1 =
      some ⟨ds, collapseWs (stripAmounts rest (as ++ [x, y, z])), [], ds,
            removeCommas x, removeCommas y, removeCommas z⟩ := by
  have h1 : (as ++ [x, y, z]).length ≥ 1 := by simp
  have h3 : (as ++ [x, y, z]).length ≥ 3 := by simp
  simp [pStep, hAdmin, hHead, hDate, hAmt, h1, h3,
    nthEnd_append3_0, nthEnd_append3_1, nthEnd_append3_2]

theorem pStep_cont_ge3 (t : PTxn) (line : List Char)
    (as : List (List Char)) (x y z : List Char)
    (hAdmin : isAdminLineP line = false) (hHead : isHeaderLineP line = false)
    (hDate : matchDate line = none)
    (hAmt : findAmounts line = as ++ [x, y, z]) :
    (pStep (some t) line).1 =
      some { t with
              narration := t.narration ++ ' ' :: stripAmounts line (as ++ [x, y, z]),
              withdrawn := removeCommas x,
              deposit := removeCommas y,
              balance := removeCommas z } := by
  have h2 : (as ++ [x, y, z]).length ≥ 2 := by simp
  have h3 : (as ++ [x, y, z]).length ≥ 3 := by simp
  simp [pStep, hAdmin, hHead, hDate, hAmt, h2, h3,
    nthEnd_append3_0, nthEnd_append3_1, nthEnd_append3_2]

theorem pStep_date_two (cur : Option PTxn) (line ds rest : List Char) (a b : List Char)
    (hAdmin : isAdminLineP line = false) (hHead : isHeaderLineP line = false)
    (hDate : matchDate line = some (ds, rest))
    (hAmt : findAmounts rest = [a, b]) :
    (pStep cur line).1 =
      some ⟨ds, collapseWs (stripAmounts rest [a, b]), [], ds,
            (if clean_amount a > clean_amount b then removeCommas a else []),
            (if clean_amount a > clean_amount b then [] else removeCommas a),
            removeCommas b⟩ := by
  have h1 : ([a, b] : List (List Char)).length ≥ 1 := by simp
  have h3 : ¬(([a, b] : List (List Char)).length ≥ 3) := by simp
  simp only [pStep, hAdmin, hHead, hDate, hAmt, Bool.false_eq_true, if_false,
    h1, if_pos, h3, nthEnd_pair_0, List.headD_cons, List.length_cons,
    List.length_nil]
  simp [nthEnd]
  refine ⟨?_, ?_⟩ <;> split <;> rfl

theorem aStep_date_ge3 (cur : Option ATxn) (line ds rest : List Char)
    (d m y yr mo dy : Nat) (as : List (List Char)) (x y2 z : List Char)
    (hStrip : pyStrip line = line) (hne : line ≠ [])
    (hHead : isHeaderLineA line = false) (hAdmin : isAdminLineA line = false)
    (hPage : ("Page No".toList).isPrefixOf line = false)
    (hDate : matchDate line = some (ds, rest))
    (hTok : dateTokenFields ds = some (d, m, y))
    (hRes : resolveTwoDigitDate d m y = some (yr, mo, dy))
    (hAmt : findAmounts line = as ++ [x, y2, z]) :
    (aStep cur line).1 =
      some ⟨yr, mo, dy, stripAmounts (pyStrip rest) (as ++ [x, y2, z]),
            parsePaise y2, parsePaise x, parsePaise z, none, line⟩ := by
  have h2 : (as ++ [x, y2, z]).length ≥ 2 := by simp
  have hne2 : ¬((as ++ [x, y2, z]).length = 2) := by simp
  have hPage0 : (['P', 'a', 'g', 'e', ' ', 'N', 'o'] : List Char).isPrefixOf line = false := hPage
  have hPage2 : ¬((['P', 'a', 'g', 'e', ' ', 'N', 'o'] : List Char) <+: line) := by
    intro hp
    rw [← List.isPrefixOf_iff_prefix, hPage0] at hp
    exact Bool.noConfusion hp
  simp [aStep, hStrip, hne, hHead, hAdmin, hPage2, hDate, hTok, hRes, hAmt, h2, hne2,
    nthEnd_append3_0, nthEnd_append3_1, nthEnd_append3_2]

theorem aStep_cont_ge3 (t : ATxn) (line : List Char)
    (as : List (List Char)) (x y2 z : List Char)
    (hStrip : pyStrip line = line) (hne : line ≠ [])
    (hHead : isHeaderLineA line = false) (hAdmin : isAdminLineA line = false)
    (hPage : ("Page No".toList).isPrefixOf line = false)
    (hDate : matchDate line = none)
    (hAmt : findAmounts line = as ++ [x, y2, z]) :
    (aStep (some t) line).1 =
      some { t with balance := parsePaise z, debit := parsePaise y2,
                    credit := parsePaise x } := by
  have h2 : (as ++ [x, y2, z]).length ≥ 2 := by simp
  have hne2 : ¬((as ++ [x, y2, z]).length = 2) := by simp
  have hPage0 : (['P', 'a', 'g', 'e', ' ', 'N', 'o'] : List Char).isPrefixOf line = false := hPage
  have hPage2 : ¬((['P', 'a', 'g', 'e', ' ', 'N', 'o'] : List Char) <+: line) := by
    intro hp
    rw [← List.isPrefixOf_iff_prefix, hPage0] at hp
    exact Bool.noConfusion hp
  simp [aStep, hStrip, hne, hHead, hAdmin, hPage2, hDate, hAmt, h2, hne2,
    nthEnd_append3_0, nthEnd_append3_1, nthEnd_append3_2]

theorem aStep_date_two (cur : Option ATxn) (line ds rest : List Char)
    (d m y yr mo dy : Nat) (a b : List Char)
    (hStrip : pyStrip line = line) (hne : line ≠ [])
    (hHead : isHeaderLineA line = false) (hAdmin : isAdminLineA line = false)
    (hPage : ("Page No".toList).isPrefixOf line = false)
    (hDate : matchDate line = some (ds, rest))
    (hTok : dateTokenFields ds = some (d, m, y))
    (hRes : resolveTwoDigitDate d m y = some (yr, mo, dy))
    (hAmt : findAmounts line = [a, b]) :
    (aStep cur line).1 =
      some ⟨yr, mo, dy, stripAmounts (pyStrip rest) [a, b], 0, 0,
            parsePaise b, some (parsePaise a), line⟩ := by
  have h2 : ([a, b] : List (List Char)).length ≥ 2 := by simp
  have heq : ([a, b] : List (List Char)).length = 2 := by simp
  have hPage0 : (['P', 'a', 'g', 'e', ' ', 'N', 'o'] : List Char).isPrefixOf line = false := hPage
  have hPage2 : ¬((['P', 'a', 'g', 'e', ' ', 'N', 'o'] : List Char) <+: line) := by
    intro hp
    rw [← List.isPrefixOf_iff_prefix, hPage0] at hp
    exact Bool.noConfusion hp
  simp [aStep, hStrip, hne, hHead, hAdmin, hPage2, hDate, hTok, hRes, hAmt, h2, heq,
    nthEnd_pair_0]

/-! ### Claim C1 — amount roles for lines with three or more tokens -/

/-- Claim C1, amended: on a new-transaction line (or amount-bearing
continuation line) with three or more amount tokens, both reconstructors
take the closing balance from the last token and use only the three
rightmost tokens for the amount columns, but they orient the other two
oppositely: `analyzer.parse_transactions` sets withdrawal (debit) to the
second-to-last token and deposit (credit) to the third-to-last, while
`statement_parser._parse_transactions_from_text` sets withdrawal to the
third-to-last and deposit to the second-to-last.  With four or more
tokens the earlier tokens never feed the amount fields, but they are
stripped out of the narration (which is truncated at the earliest stripped
amount occurrence) rather than left in it. -/
theorem c1_rightmost_three_tokens :
    (∀ (cur : Option PTxn) (line ds rest : List Char)
      (as : List (List Char)) (x y z : List Char),
      isAdminLineP line = false → isHeaderLineP line = false →
      matchDate line = some (ds, rest) →
      findAmounts rest = as ++ [x, y, z] →
      (pStep cur line).1 =
        some ⟨ds, collapseWs (stripAmounts rest (as ++ [x, y, z])), [], ds,
              removeCommas x, removeCommas y, removeCommas z⟩) ∧
    (∀ (t : PTxn) (line : List Char) (as : List (List Char)) (x y z : List Char),
      isAdminLineP line = false → isHeaderLineP line = false →
      matchDate line = none →
      findAmounts line = as ++ [x, y, z] →
      (pStep (some t) line).1 =
        some { t with
                narration := t.narration ++ ' ' :: stripAmounts line (as ++ [x, y, z]),
                withdrawn := removeCommas x,
                deposit := removeCommas y,
                balance := removeCommas z }) ∧
    (∀ (cur : Option ATxn) (line ds rest : List Char)
      (d m y yr mo dy : Nat) (as : List (List Char)) (x y2 z : List Char),
      pyStrip line = line → line ≠ [] →
      isHeaderLineA line = false → isAdminLineA line = false →
      ("Page No".toList).isPrefixOf line = false →
      matchDate line = some (ds, rest) →
      dateTokenFields ds = some (d, m, y) →
      resolveTwoDigitDate d m y = some (yr, mo, dy) →
      findAmounts line = as ++ [x, y2, z] →
      (aStep cur line).1 =
        some ⟨yr, mo, dy, stripAmounts (pyStrip rest) (as ++ [x, y2, z]),
              parsePaise y2, parsePaise x, parsePaise z, none, line⟩) ∧
    (∀ (t : ATxn) (line : List Char) (as : List (List Char)) (x y2 z : List Char),
      pyStrip line = line → line ≠ [] →
      isHeaderLineA line = false → isAdminLineA line = false →
      ("Page No".toList).isPrefixOf line = false →
      matchDate line = none →
      findAmounts line = as ++ [x, y2, z] →
      (aStep (some t) line).1 =
        some { t with balance := parsePaise z, debit := parsePaise y2,
                      credit := parsePaise x }) :=
  ⟨pStep_date_ge3, pStep_cont_ge3, aStep_date_ge3, aStep_cont_ge3⟩

/-- Counterexample to claim C1 as stated: on the single line
`"01/04/23 ACC 1234.56 PAY 10.00 20.00 500.00"` (four amount tokens),
`statement_parser._parse_transactions_from_text` emits withdrawal
`"10.00"` — the third-to-last token, not the second-to-last `"20.00"`
the claim requires — and the narration `"ACC"`, from which the earlier
token `1234.56` (and the text after it) has been stripped instead of
being left to the narration. -/
theorem c1_counterexample :
    parse_transactions_from_text
        [("01/04/23 ACC 1234.56 PAY 10.00 20.00 500.00").toList] =
      [⟨("01/04/23").toList, ("ACC").toList, [], ("01/04/23").toList,
        ("10.00").toList, ("20.00").toList, ("500.00").toList⟩] ∧
    ("10.00").toList ≠ ("20.00").toList ∧
    ("ACC").toList ≠ ("ACC 1234.56 PAY").toList := by
  decide

/-- Witness for `c1_rightmost_three_tokens`: both reconstructors applied to
concrete three-token lines. -/
theorem c1_witness :
    (pStep none (("01/04/23 X 1.00 2.00 3.00").toList)).1 =
      some ⟨("01/04/23").toList, ("X").toList, [], ("01/04/23").toList,
            ("1.00").toList, ("2.00").toList, ("3.00").toList⟩ ∧
    (aStep none (("01/04/23 X 1.00 2.00 3.00").toList)).1 =
      some ⟨2023, 4, 1, ("X").toList, 200, 100, 300, none,
            ("01/04/23 X 1.00 2.00 3.00").toList⟩ := by
  constructor
  · have h := c1_rightmost_three_tokens.1 none
      (("01/04/23 X 1.00 2.00 3.00").toList) (("01/04/23").toList)
      (("X 1.00 2.00 3.00").toList) []
      (("1.00").toList) (("2.00").toList) (("3.00").toList)
      (by decide) (by decide) (by decide) (by decide)
    exact h.trans (by decide)
  · have h := c1_rightmost_three_tokens.2.2.1 none
      (("01/04/23 X 1.00 2.00 3.00").toList) (("01/04/23").toList)
      (("X 1.00 2.00 3.00").toList) 1 4 23 2023 4 1 []
      (("1.00").toList) (("2.00").toList) (("3.00").toList)
      (by decide) (by decide) (by decide) (by decide) (by decide) (by decide)
      (by decide) (by decide) (by decide)
    exact h.trans (by decide)

/-! ### Claim C3 — the two-token case -/

/-- Claim C3, amended: on a new-transaction line with exactly two amount
tokens, `analyzer.parse_transactions` records the last token as the
balance and the first as a pending `transaction_amt`, leaves debit and
credit at zero and defers the debit-vs-credit decision to the
balance-delta pass; `statement_parser._parse_transactions_from_text`
instead decides the sign on that line alone: when the first token exceeds
the last (the balance) it becomes the withdrawal, otherwise the
deposit. -/
theorem c3_two_token_case :
    (∀ (cur : Option ATxn) (line ds rest : List Char)
      (d m y yr mo dy : Nat) (a b : List Char),
      pyStrip line = line → line ≠ [] →
      isHeaderLineA line = false → isAdminLineA line = false →
      ("Page No".toList).isPrefixOf line = false →
      matchDate line = some (ds, rest) →
      dateTokenFields ds = some (d, m, y) →
      resolveTwoDigitDate d m y = some (yr, mo, dy) →
      findAmounts line = [a, b] →
      (aStep cur line).1 =
        some ⟨yr, mo, dy, stripAmounts (pyStrip rest) [a, b], 0, 0,
              parsePaise b, some (parsePaise a), line⟩) ∧
    (∀ (cur : Option PTxn) (line ds rest : List Char) (a b : List Char),
      isAdminLineP line = false → isHeaderLineP line = false →
      matchDate line = some (ds, rest) →
      findAmounts rest = [a, b] →
      (pStep cur line).1 =
        some ⟨ds, collapseWs (stripAmounts rest [a, b]), [], ds,
              (if clean_amount a > clean_amount b then removeCommas a else []),
              (if clean_amount a > clean_amount b then [] else removeCommas a),
              removeCommas b⟩) :=
  ⟨aStep_date_two, pStep_date_two⟩

/-- Counterexample to claim C3 as stated: on the single two-token line
`"01/04/23 FOO 200.00 800.00"`,
`statement_parser._parse_transactions_from_text` does not leave both
amount fields at zero — it decides the sign from that line alone
(first token 200.00 not greater than balance 800.00, hence deposit),
emitting deposit `"200.00"` with no back-fill pass involved. -/
theorem c3_counterexample :
    parse_transactions_from_text [("01/04/23 FOO 200.00 800.00").toList] =
      [⟨("01/04/23").toList, ("FOO").toList, [], ("01/04/23").toList,
        [], ("200.00").toList, ("800.00").toList⟩] ∧
    ("200.00").toList ≠ ([] : List Char) := by
  decide

/-- Witness for `c3_two_token_case`: the analyzer defers the sign on a
concrete two-token line. -/
theorem c3_witness :
    (aStep none (("02/05/23 PAY 150.00 900.00").toList)).1 =
      some ⟨2023, 5, 2, ("PAY").toList, 0, 0, 90000, some 15000,
            ("02/05/23 PAY 150.00 900.00").toList⟩ := by
  have h := c3_two_token_case.1 none
    (("02/05/23 PAY 150.00 900.00").toList) (("02/05/23").toList)
    (("PAY 150.00 900.00").toList) 2 5 23 2023 5 2
    (("150.00").toList) (("900.00").toList)
    (by decide) (by decide) (by decide) (by decide) (by decide) (by decide)
    (by decide) (by decide) (by decide)
  exact h.trans (by decide)

/-! ### Claim C4 — mutual exclusivity of withdrawal and deposit -/

/-- Claim C4, amended: mutual exclusivity holds only on the two-token
paths — the balance-delta back-fill sets at most one of debit/credit
non-zero on a record it resolves, and
`statement_parser._parse_transactions_from_text`'s two-token branch fills
exactly one of withdrawal/deposit, leaving the other empty.  (Records
built from lines with three or more tokens copy both amount columns as
found and may carry both positive; records whose lines had no or only one
resolvable amount can be emitted with both zero rather than dropped —
see the counterexample.) -/
theorem c4_two_token_exclusivity :
    (∀ (prev : Option Int) (t : ATxn) (rest : List ATxn) (amt : Int),
      t.transaction_amt = some amt → t.debit = 0 → t.credit = 0 →
      ∃ t1 tl, backfill prev (t :: rest) = t1 :: tl ∧
        (t1.debit = 0 ∨ t1.credit = 0)) ∧
    (∀ (cur : Option PTxn) (line ds rest : List Char) (a b : List Char),
      isAdminLineP line = false → isHeaderLineP line = false →
      matchDate line = some (ds, rest) →
      findAmounts rest = [a, b] →
      ∃ rec, (pStep cur line).1 = some rec ∧
        (rec.withdrawn = [] ∨ rec.deposit = [])) := by
  constructor
  · intro prev t rest amt ht hd hc
    cases prev with
    | none =>
      refine ⟨{ t with debit := amt, transaction_amt := none },
        backfill (some t.balance) rest, ?_, Or.inr (by simp [hc])⟩
      simp [backfill, ht, hd, hc]
    | some pb =>
      by_cases hlt : t.balance - pb < 0
      · refine ⟨{ t with debit := |t.balance - pb|, transaction_amt := none },
          backfill (some t.balance) rest, ?_, Or.inr (by simp [hc])⟩
        simp [backfill, ht, hd, hc, hlt]
      · refine ⟨{ t with credit := |t.balance - pb|, transaction_amt := none },
          backfill (some t.balance) rest, ?_, Or.inl (by simp [hd])⟩
        simp [backfill, ht, hd, hc, hlt]
  · intro cur line ds rest a b hA hH hD hAm
    refine ⟨_, pStep_date_two cur line ds rest a b hA hH hD hAm, ?_⟩
    by_cases hgt : clean_amount a > clean_amount b
    · exact Or.inr (by simp [hgt])
    · exact Or.inl (by simp [hgt])

/-- Counterexample to claim C4 as stated: `analyzer.parse_transactions`
emits, for the single three-token line `"01/04/23 FOO 10.00 20.00
500.00"`, a record with withdrawal 20.00 and deposit 10.00 both positive
(no mutual exclusivity); and
`statement_parser._parse_transactions_from_text` emits, for the
one-token line `"01/04/23 FOO 500.00"`, a record whose withdrawal and
deposit are both zero (empty) instead of dropping it. -/
theorem c4_counterexample :
    (parse_transactions [("01/04/23 FOO 10.00 20.00 500.00").toList]).map
        (fun t => (t.debit, t.credit)) = [(2000, 1000)] ∧
    (0 : Int) < 2000 ∧ (0 : Int) < 1000 ∧
    parse_transactions_from_text [("01/04/23 FOO 500.00").toList] =
      [⟨("01/04/23").toList, ("FOO").toList, [], ("01/04/23").toList,
        [], [], ("500.00").toList⟩] := by
  decide

/-- Witness for `c4_two_token_exclusivity`: the back-fill at a concrete
record with a previous balance. -/
theorem c4_witness :
    ∃ t1 tl,
      backfill (some 100) [⟨2023, 4, 2, ("W").toList, 0, 0, 40, some 60, []⟩] = t1 :: tl ∧
        (t1.debit = 0 ∨ t1.credit = 0) := by
  exact c4_two_token_exclusivity.1 (some 100)
    ⟨2023, 4, 2, ("W").toList, 0, 0, 40, some 60, []⟩ [] 60 rfl rfl rfl

/-! ### Claim C5 — cost-head classification -/

/-- Claim C5: cost-head classification considers exactly the records with
positive withdrawal whose narration does not start with the
internal-transfer exclusion prefix `"NEFT DR-CNRB0002374"` (the source
tests the prefix on the stripped, upper-cased narration); every such
record receives exactly one label — the first category of the ordered
`COST_HEADS` table with a keyword occurring case-insensitively as a
substring of the lowercased narration — and `"Other"` when no keyword of
any category matches. -/
theorem c5_cost_head_assignment :
    (∀ (rows : List TxnRow) (r : TxnRow),
      r ∈ expenseRows rows ↔
        (r ∈ rows ∧ 0 < r.debit ∧ excluded_from_expense r.narration = false)) ∧
    (∀ n : List Char,
      (∀ p ∈ COST_HEADS, ∀ kw ∈ p.2, subOf (pyLower kw) (pyLower n) = false) →
      assign_cost_head n = ("Other").toList) ∧
    (∀ (n : List Char) (pre : List (List Char × List (List Char)))
      (p : List Char × List (List Char)) (suf : List (List Char × List (List Char))),
      COST_HEADS = pre ++ p :: suf →
      (∀ q ∈ pre, ∀ kw ∈ q.2, subOf (pyLower kw) (pyLower n) = false) →
      (∃ kw, kw ∈ p.2 ∧ subOf (pyLower kw) (pyLower n) = true) →
      assign_cost_head n = p.1) := by
  refine ⟨?_, ?_, ?_⟩
  · intro rows r
    simp [expenseRows, expenseRow, List.mem_filter, Bool.and_eq_true,
      decide_eq_true_eq, Bool.not_eq_true', and_assoc]
  · intro n h
    have hfind : COST_HEADS.find?
        (fun p => p.2.any (fun kw => subOf (pyLower kw) (pyLower n))) = none := by
      rw [List.find?_eq_none]
      intro x hx hany
      rw [List.any_eq_true] at hany
      obtain ⟨kw, hkw, hsub⟩ := hany
      rw [h x hx kw hkw] at hsub
      exact Bool.noConfusion hsub
    simp [assign_cost_head, hfind]
  · intro n pre p suf hCH hpre hmatch
    have hfind := find_first_of_split
      (fun q => q.2.any (fun kw => subOf (pyLower kw) (pyLower n))) pre p suf
      (by
        intro q hq
        rw [List.any_eq_false]
        intro kw hkw
        rw [hpre q hq kw hkw]
        simp)
      (by
        rw [List.any_eq_true]
        obtain ⟨kw, hkw, hs⟩ := hmatch
        exact ⟨kw, hkw, hs⟩)
    simp [assign_cost_head, hCH, hfind]

/-- Witness for `c5_cost_head_assignment`: the narration
`"HOUSE RENT PAYMENT"` matches no Salary or Feed keyword, matches the
`"rent"` keyword, and is labelled `"Rent"` — the first matching category
of the ordered table. -/
theorem c5_witness :
    assign_cost_head (("HOUSE RENT PAYMENT").toList) = ("Rent").toList := by
  have h := c5_cost_head_assignment.2.2 (("HOUSE RENT PAYMENT").toList)
    (COST_HEADS.take 2) ((("Rent").toList, [("rent").toList])) (COST_HEADS.drop 3)
    (by decide) (by decide) ⟨("rent").toList, by decide, by decide⟩
  exact h

/-! ### Claim C9 — column normalization -/

theorem mem_snd_buildMapping (cols : List (List Char)) (x : List Char)
    (h : x ∈ (buildMapping cols).map Prod.snd) :
    (x = ("date").toList ∧ find_column cols dateAliases ≠ none) ∨
    (x = ("narration").toList ∧ find_column cols narrationAliases ≠ none) ∨
    (x = ("debit").toList ∧ find_column cols withdrawnAliases ≠ none) ∨
    (x = ("credit").toList ∧ find_column cols depositAliases ≠ none) ∨
    (x = ("balance").toList ∧ find_column cols balanceAliases ≠ none) := by
  simp only [buildMapping] at h
  rcases mem_snd_addMapping h with h1 | h
  · exact Or.inr (Or.inr (Or.inr (Or.inr h1)))
  rcases mem_snd_addMapping h with h1 | h
  · exact Or.inr (Or.inr (Or.inr (Or.inl h1)))
  rcases mem_snd_addMapping h with h1 | h
  · exact Or.inr (Or.inr (Or.inl h1))
  rcases mem_snd_addMapping h with h1 | h
  · exact Or.inr (Or.inl h1)
  rcases mem_snd_addMapping h with h1 | h
  · exact Or.inl h1
  · simp at h

theorem pair_mem_dictInsert_of_ne {m : List (List Char × List Char)}
    {k v k0 v0 : List Char} (h : (k0, v0) ∈ m) (hk : k0 ≠ k) :
    (k0, v0) ∈ dictInsert m k v := by
  unfold dictInsert
  split
  · exact List.mem_map.mpr ⟨(k0, v0), h, by simp [hk]⟩
  · exact List.mem_append_left _ h

theorem self_mem_dictInsert {m : List (List Char × List Char)} {k v : List Char} :
    (k, v) ∈ dictInsert m k v := by
  unfold dictInsert
  split
  · rename_i hany
    simp only [List.any_eq_true, decide_eq_true_eq] at hany
    obtain ⟨p, hp, hpk⟩ := hany
    exact List.mem_map.mpr ⟨p, hp, by simp [hpk]⟩
  · exact List.mem_append_right _ (by simp)

theorem pair_mem_addMapping {m : List (List Char × List Char)}
    {f : Option (List Char)} {field k0 v0 : List Char} (h : (k0, v0) ∈ m)
    (hk : ∀ c, f = some c → k0 ≠ c) : (k0, v0) ∈ addMapping m f field := by
  cases f with
  | none => exact h
  | some c => exact pair_mem_dictInsert_of_ne h (hk c rfl)

/-- Claim C9, amended: `_normalize_columns` maps headers through the
case-insensitive, end-whitespace-insensitive alias lists of
`_find_column` (a column matches an alias when the normalized forms are
equal or one contains the other) and signals an unusable sheet exactly
when the canonical names `{date, debit, credit}` are not all present
among the final column-to-field assignments.  A mandatory field whose
lookup fails always makes the sheet unusable, and when the three
mandatory fields resolve to pairwise-distinct columns not also claimed by
the narration or balance lookups the sheet is usable; but a later field
assignment overwrites an earlier one for the same column, so the sheet
can be signalled unusable even though every mandatory field is
individually resolvable (see the counterexample). -/
theorem c9_mandatory_columns :
    (∀ cols : List (List Char),
      (find_column cols dateAliases = none ∨
       find_column cols withdrawnAliases = none ∨
       find_column cols depositAliases = none) →
      normalize_columns cols = none) ∧
    (∀ (cols : List (List Char)) (cd cb cc : List Char),
      find_column cols dateAliases = some cd →
      find_column cols withdrawnAliases = some cb →
      find_column cols depositAliases = some cc →
      cd ≠ cb → cd ≠ cc → cb ≠ cc →
      (∀ cn, find_column cols narrationAliases = some cn →
        cn ≠ cd ∧ cn ≠ cb ∧ cn ≠ cc) →
      (∀ cl, find_column cols balanceAliases = some cl →
        cl ≠ cd ∧ cl ≠ cb ∧ cl ≠ cc) →
      ∃ mp, normalize_columns cols = some mp) := by
  constructor
  · intro cols h
    simp only [normalize_columns]
    rw [if_neg]
    intro hcon
    obtain ⟨hd, hb, hc⟩ := hcon
    rcases h with h | h | h
    · rcases mem_snd_buildMapping cols _ hd with
        ⟨_, hne⟩ | ⟨heq, _⟩ | ⟨heq, _⟩ | ⟨heq, _⟩ | ⟨heq, _⟩
      · exact hne h
      all_goals exact absurd heq (by decide)
    · rcases mem_snd_buildMapping cols _ hb with
        ⟨heq, _⟩ | ⟨heq, _⟩ | ⟨_, hne⟩ | ⟨heq, _⟩ | ⟨heq, _⟩
      · exact absurd heq (by decide)
      · exact absurd heq (by decide)
      · exact hne h
      all_goals exact absurd heq (by decide)
    · rcases mem_snd_buildMapping cols _ hc with
        ⟨heq, _⟩ | ⟨heq, _⟩ | ⟨heq, _⟩ | ⟨_, hne⟩ | ⟨heq, _⟩
      · exact absurd heq (by decide)
      · exact absurd heq (by decide)
      · exact absurd heq (by decide)
      · exact hne h
      · exact absurd heq (by decide)
  · intro cols cd cb cc hd hb hc hdb hdc hbc hn hbal
    have hdate : (cd, ("date").toList) ∈ buildMapping cols := by
      simp only [buildMapping, hd]
      refine pair_mem_addMapping (pair_mem_addMapping (pair_mem_addMapping
        (pair_mem_addMapping self_mem_dictInsert ?_) ?_) ?_) ?_
      · intro c hcn he
        exact (hn c hcn).1 he.symm
      · intro c hcb
        rw [hb] at hcb
        cases hcb
        exact hdb
      · intro c hcc
        rw [hc] at hcc
        cases hcc
        exact hdc
      · intro c hcl he
        exact (hbal c hcl).1 he.symm
    have hdebit : (cb, ("debit").toList) ∈ buildMapping cols := by
      simp only [buildMapping, hb]
      refine pair_mem_addMapping (pair_mem_addMapping self_mem_dictInsert ?_) ?_
      · intro c hcc
        rw [hc] at hcc
        cases hcc
        exact hbc
      · intro c hcl he
        exact (hbal c hcl).2.1 he.symm
    have hcredit : (cc, ("credit").toList) ∈ buildMapping cols := by
      simp only [buildMapping, hc]
      refine pair_mem_addMapping self_mem_dictInsert ?_
      intro c hcl he
      exact (hbal c hcl).2.2 he.symm
    have hvals : (("date").toList ∈ (buildMapping cols).map Prod.snd) ∧
        (("debit").toList ∈ (buildMapping cols).map Prod.snd) ∧
        (("credit").toList ∈ (buildMapping cols).map Prod.snd) :=
      ⟨List.mem_map.mpr ⟨_, hdate, rfl⟩, List.mem_map.mpr ⟨_, hdebit, rfl⟩,
       List.mem_map.mpr ⟨_, hcredit, rfl⟩⟩
    refine ⟨buildMapping cols, ?_⟩
    simp only [normalize_columns]
    rw [if_pos hvals]

/-- Counterexample to claim C9 as stated: for the header
`["credit date", "debit"]` each mandatory field is resolvable
(`_find_column` returns a column for date, withdrawal and deposit), yet
the date and deposit lookups land on the same column `"credit date"`, the
later `credit` assignment overwrites the `date` one, and the sheet is
signalled unusable. -/
theorem c9_counterexample :
    normalize_columns [("credit date").toList, ("debit").toList] = none ∧
    find_column [("credit date").toList, ("debit").toList] dateAliases =
      some (("credit date").toList) ∧
    find_column [("credit date").toList, ("debit").toList] withdrawnAliases =
      some (("debit").toList) ∧
    find_column [("credit date").toList, ("debit").toList] depositAliases =
      some (("credit date").toList) := by
  decide

/-- Witness for `c9_mandatory_columns`: the standard HDFC header is
usable. -/
theorem c9_witness :
    ∃ mp, normalize_columns
      [("Date").toList, ("Narration").toList, ("Chq./Ref.No.").toList,
       ("Value Dt").toList, ("Withdrawal Amt.").toList, ("Deposit Amt.").toList,
       ("Closing Balance").toList] = some mp := by
  refine c9_mandatory_columns.2
    [("Date").toList, ("Narration").toList, ("Chq./Ref.No.").toList,
     ("Value Dt").toList, ("Withdrawal Amt.").toList, ("Deposit Amt.").toList,
     ("Closing Balance").toList]
    (("Date").toList) (("Withdrawal Amt.").toList) (("Deposit Amt.").toList)
    (by decide) (by decide) (by decide) (by decide) (by decide) (by decide)
    ?_ ?_
  · intro cn h
    have he : find_column
        [("Date").toList, ("Narration").toList, ("Chq./Ref.No.").toList,
         ("Value Dt").toList, ("Withdrawal Amt.").toList, ("Deposit Amt.").toList,
         ("Closing Balance").toList] narrationAliases = some (("Narration").toList) := by
      decide
    rw [he] at h
    cases h
    refine ⟨by decide, by decide, by decide⟩
  · intro cl h
    have he : find_column
        [("Date").toList, ("Narration").toList, ("Chq./Ref.No.").toList,
         ("Value Dt").toList, ("Withdrawal Amt.").toList, ("Deposit Amt.").toList,
         ("Closing Balance").toList] balanceAliases = some (("Closing Balance").toList) := by
      decide
    rw [he] at h
    cases h
    refine ⟨by decide, by decide, by decide⟩

/-! ### Claim C6 — counterparty identifiers -/

theorem pyFindCharAux_of_not_mem (c : Char) (l : List Char) (h : c ∉ l) :
    pyFindCharAux c l = none := by
  induction l with
  | nil => rfl
  | cons a rest ih =>
    have ha : a ≠ c := fun he => h (he ▸ List.mem_cons_self a rest)
    simp [pyFindCharAux, ha, ih (fun hm => h (List.mem_cons_of_mem a hm))]

theorem pyFindCharAux_append (c : Char) (A B : List Char) (h : c ∉ A) :
    pyFindCharAux c (A ++ c :: B) = some A.length := by
  induction A with
  | nil => simp [pyFindCharAux]
  | cons a rest ih =>
    have ha : a ≠ c := fun he => h (he ▸ List.mem_cons_self a rest)
    simp [pyFindCharAux, ha, ih (fun hm => h (List.mem_cons_of_mem a hm))]

theorem pyFindChar_zero (l : List Char) (c : Char) : pyFindChar l c 0 = pyFindCharAux c l := by
  simp [pyFindChar]

theorem drop_succ_append (A B : List Char) (c : Char) :
    (A ++ c :: B).drop (A.length + 1) = B := by
  rw [show A ++ c :: B = (A ++ [c]) ++ B by simp]
  rw [show A.length + 1 = (A ++ [c]).length by simp]
  exact List.drop_left _ _

theorem pyFindChar_after (A B : List Char) (c : Char) :
    pyFindChar (A ++ c :: B) c (A.length + 1) = (pyFindCharAux c B).map (· + (A.length + 1)) := by
  simp [pyFindChar, drop_succ_append]

theorem take_before_second (A y z : List Char) (c : Char) :
    (A ++ c :: (y ++ c :: z)).take (y.length + (A.length + 1)) = A ++ c :: y := by
  rw [show A ++ c :: (y ++ c :: z) = (A ++ c :: y) ++ c :: z by simp]
  have hl : (A ++ c :: y).length = y.length + (A.length + 1) := by simp; omega
  rw [← hl]
  exact List.take_left _ _

theorem upi_two_dash (x y z : List Char) (hx : '-' ∉ x) (hy : '-' ∉ y)
    (hT : pyStrip ('U' :: 'P' :: 'I' :: (x ++ '-' :: (y ++ '-' :: z))) =
      'U' :: 'P' :: 'I' :: (x ++ '-' :: (y ++ '-' :: z))) :
    upi_customer_id ('U' :: 'P' :: 'I' :: (x ++ '-' :: (y ++ '-' :: z))) =
      some ('U' :: 'P' :: 'I' :: (x ++ '-' :: y)) := by
  have hA : '-' ∉ ('U' :: 'P' :: 'I' :: x) := by
    simp [hx]
  have hshape : 'U' :: 'P' :: 'I' :: (x ++ '-' :: (y ++ '-' :: z)) =
      ('U' :: 'P' :: 'I' :: x) ++ '-' :: (y ++ '-' :: z) := by simp
  have hpre : (("UPI").toList).isPrefixOf
      (pyUpper ('U' :: 'P' :: 'I' :: (x ++ '-' :: (y ++ '-' :: z)))) = true := by
    simp [pyUpper, List.isPrefixOf]
  have find1 : pyFindChar ('U' :: 'P' :: 'I' :: (x ++ '-' :: (y ++ '-' :: z))) '-' 0 =
      some (('U' :: 'P' :: 'I' :: x).length) := by
    rw [pyFindChar_zero, hshape]
    exact pyFindCharAux_append '-' _ _ hA
  have find2 : pyFindChar ('U' :: 'P' :: 'I' :: (x ++ '-' :: (y ++ '-' :: z))) '-'
      (('U' :: 'P' :: 'I' :: x).length + 1) =
      some (y.length + (('U' :: 'P' :: 'I' :: x).length + 1)) := by
    rw [hshape, pyFindChar_after]
    rw [pyFindCharAux_append '-' y z hy]
    rfl
  simp only [upi_customer_id, hT, hpre, if_true, find1, find2]
  rw [hshape, take_before_second]
  simp

theorem upi_one_dash (x y : List Char) (hx : '-' ∉ x) (hy : '-' ∉ y)
    (hT : pyStrip ('U' :: 'P' :: 'I' :: (x ++ '-' :: y)) =
      'U' :: 'P' :: 'I' :: (x ++ '-' :: y)) :
    upi_customer_id ('U' :: 'P' :: 'I' :: (x ++ '-' :: y)) =
      some ('U' :: 'P' :: 'I' :: (x ++ '-' :: y)) := by
  have hA : '-' ∉ ('U' :: 'P' :: 'I' :: x) := by simp [hx]
  have hshape : 'U' :: 'P' :: 'I' :: (x ++ '-' :: y) =
      ('U' :: 'P' :: 'I' :: x) ++ '-' :: y := by simp
  have hpre : (("UPI").toList).isPrefixOf
      (pyUpper ('U' :: 'P' :: 'I' :: (x ++ '-' :: y))) = true := by
    simp [pyUpper, List.isPrefixOf]
  have find1 : pyFindChar ('U' :: 'P' :: 'I' :: (x ++ '-' :: y)) '-' 0 =
      some (('U' :: 'P' :: 'I' :: x).length) := by
    rw [pyFindChar_zero, hshape]
    exact pyFindCharAux_append '-' _ _ hA
  have find2 : pyFindChar ('U' :: 'P' :: 'I' :: (x ++ '-' :: y)) '-'
      (('U' :: 'P' :: 'I' :: x).length + 1) = none := by
    rw [hshape, pyFindChar_after]
    rw [pyFindCharAux_of_not_mem '-' y hy]
    rfl
  simp only [upi_customer_id, hT, hpre, if_true, find1, find2]

theorem upi_no_dash (x : List Char) (hx : '-' ∉ x)
    (hT : pyStrip ('U' :: 'P' :: 'I' :: x) = 'U' :: 'P' :: 'I' :: x) :
    upi_customer_id ('U' :: 'P' :: 'I' :: x) = some ('U' :: 'P' :: 'I' :: x) := by
  have hA : '-' ∉ ('U' :: 'P' :: 'I' :: x) := by simp [hx]
  have hpre : (("UPI").toList).isPrefixOf (pyUpper ('U' :: 'P' :: 'I' :: x)) = true := by
    simp [pyUpper, List.isPrefixOf]
  have find1 : pyFindChar ('U' :: 'P' :: 'I' :: x) '-' 0 = none := by
    rw [pyFindChar_zero]
    exact pyFindCharAux_of_not_mem '-' _ hA
  simp only [upi_customer_id, hT, hpre, if_true, find1]

theorem neft_two_dash (x y z : List Char) (hx : '-' ∉ x) (hy : '-' ∉ y)
    (hT : pyStrip ('N' :: 'E' :: 'F' :: 'T' :: (x ++ '-' :: (y ++ '-' :: z))) =
      'N' :: 'E' :: 'F' :: 'T' :: (x ++ '-' :: (y ++ '-' :: z))) :
    neft_customer_id ('N' :: 'E' :: 'F' :: 'T' :: (x ++ '-' :: (y ++ '-' :: z))) =
      some ('N' :: 'E' :: 'F' :: 'T' :: (x ++ '-' :: y)) := by
  have hA : '-' ∉ ('N' :: 'E' :: 'F' :: 'T' :: x) := by simp [hx]
  have hshape : 'N' :: 'E' :: 'F' :: 'T' :: (x ++ '-' :: (y ++ '-' :: z)) =
      ('N' :: 'E' :: 'F' :: 'T' :: x) ++ '-' :: (y ++ '-' :: z) := by simp
  have hpre : (("NEFT").toList).isPrefixOf
      (pyUpper ('N' :: 'E' :: 'F' :: 'T' :: (x ++ '-' :: (y ++ '-' :: z)))) = true := by
    simp [pyUpper, List.isPrefixOf]
  have find1 : pyFindChar ('N' :: 'E' :: 'F' :: 'T' :: (x ++ '-' :: (y ++ '-' :: z))) '-' 0 =
      some (('N' :: 'E' :: 'F' :: 'T' :: x).length) := by
    rw [pyFindChar_zero, hshape]
    exact pyFindCharAux_append '-' _ _ hA
  have find2 : pyFindChar ('N' :: 'E' :: 'F' :: 'T' :: (x ++ '-' :: (y ++ '-' :: z))) '-'
      (('N' :: 'E' :: 'F' :: 'T' :: x).length + 1) =
      some (y.length + (('N' :: 'E' :: 'F' :: 'T' :: x).length + 1)) := by
    rw [hshape, pyFindChar_after]
    rw [pyFindCharAux_append '-' y z hy]
    rfl
  simp only [neft_customer_id, hT, hpre, if_true, find1, find2]
  rw [hshape, take_before_second]
  simp

theorem neft_one_dash (x y : List Char) (hx : '-' ∉ x) (hy : '-' ∉ y)
    (hT : pyStrip ('N' :: 'E' :: 'F' :: 'T' :: (x ++ '-' :: y)) =
      'N' :: 'E' :: 'F' :: 'T' :: (x ++ '-' :: y)) :
    neft_customer_id ('N' :: 'E' :: 'F' :: 'T' :: (x ++ '-' :: y)) =
      some ('N' :: 'E' :: 'F' :: 'T' :: (x ++ '-' :: y)) := by
  have hA : '-' ∉ ('N' :: 'E' :: 'F' :: 'T' :: x) := by simp [hx]
  have hshape : 'N' :: 'E' :: 'F' :: 'T' :: (x ++ '-' :: y) =
      ('N' :: 'E' :: 'F' :: 'T' :: x) ++ '-' :: y := by simp
  have hpre : (("NEFT").toList).isPrefixOf
      (pyUpper ('N' :: 'E' :: 'F' :: 'T' :: (x ++ '-' :: y))) = true := by
    simp [pyUpper, List.isPrefixOf]
  have find1 : pyFindChar ('N' :: 'E' :: 'F' :: 'T' :: (x ++ '-' :: y)) '-' 0 =
      some (('N' :: 'E' :: 'F' :: 'T' :: x).length) := by
    rw [pyFindChar_zero, hshape]
    exact pyFindCharAux_append '-' _ _ hA
  have find2 : pyFindChar ('N' :: 'E' :: 'F' :: 'T' :: (x ++ '-' :: y)) '-'
      (('N' :: 'E' :: 'F' :: 'T' :: x).length + 1) = none := by
    rw [hshape, pyFindChar_after]
    rw [pyFindCharAux_of_not_mem '-' y hy]
    rfl
  simp only [neft_customer_id, hT, hpre, if_true, find1, find2]

theorem neft_no_dash (x : List Char) (hx : '-' ∉ x)
    (hT : pyStrip ('N' :: 'E' :: 'F' :: 'T' :: x) = 'N' :: 'E' :: 'F' :: 'T' :: x) :
    neft_customer_id ('N' :: 'E' :: 'F' :: 'T' :: x) =
      some ('N' :: 'E' :: 'F' :: 'T' :: x) := by
  have hA : '-' ∉ ('N' :: 'E' :: 'F' :: 'T' :: x) := by simp [hx]
  have hpre : (("NEFT").toList).isPrefixOf
      (pyUpper ('N' :: 'E' :: 'F' :: 'T' :: x)) = true := by
    simp [pyUpper, List.isPrefixOf]
  have find1 : pyFindChar ('N' :: 'E' :: 'F' :: 'T' :: x) '-' 0 = none := by
    rw [pyFindChar_zero]
    exact pyFindCharAux_of_not_mem '-' _ hA
  simp only [neft_customer_id, hT, hpre, if_true, find1]

theorem imps_three_dash (x y z w : List Char) (hx : '-' ∉ x) (hy : '-' ∉ y) (hz : '-' ∉ z)
    (hT : pyStrip ('I' :: 'M' :: 'P' :: 'S' :: (x ++ '-' :: (y ++ '-' :: (z ++ '-' :: w)))) =
      'I' :: 'M' :: 'P' :: 'S' :: (x ++ '-' :: (y ++ '-' :: (z ++ '-' :: w)))) :
    imps_customer_id ('I' :: 'M' :: 'P' :: 'S' :: (x ++ '-' :: (y ++ '-' :: (z ++ '-' :: w)))) =
      some z := by
  have hA : '-' ∉ ('I' :: 'M' :: 'P' :: 'S' :: x) := by simp [hx]
  have hshape : 'I' :: 'M' :: 'P' :: 'S' :: (x ++ '-' :: (y ++ '-' :: (z ++ '-' :: w))) =
      ('I' :: 'M' :: 'P' :: 'S' :: x) ++ '-' :: (y ++ '-' :: (z ++ '-' :: w)) := by simp
  have hshape2 : 'I' :: 'M' :: 'P' :: 'S' :: (x ++ '-' :: (y ++ '-' :: (z ++ '-' :: w))) =
      (('I' :: 'M' :: 'P' :: 'S' :: x) ++ '-' :: y) ++ '-' :: (z ++ '-' :: w) := by simp
  have hB2 : (y.length + (('I' :: 'M' :: 'P' :: 'S' :: x).length + 1)) + 1 =
      (('I' :: 'M' :: 'P' :: 'S' :: x) ++ '-' :: y).length + 1 := by
    simp
    omega
  have hpre : (("IMPS").toList).isPrefixOf
      (pyUpper ('I' :: 'M' :: 'P' :: 'S' :: (x ++ '-' :: (y ++ '-' :: (z ++ '-' :: w))))) =
        true := by
    simp [pyUpper, List.isPrefixOf]
  have find1 : pyFindChar
      ('I' :: 'M' :: 'P' :: 'S' :: (x ++ '-' :: (y ++ '-' :: (z ++ '-' :: w)))) '-' 0 =
      some (('I' :: 'M' :: 'P' :: 'S' :: x).length) := by
    rw [pyFindChar_zero, hshape]
    exact pyFindCharAux_append '-' _ _ hA
  have find2 : pyFindChar
      ('I' :: 'M' :: 'P' :: 'S' :: (x ++ '-' :: (y ++ '-' :: (z ++ '-' :: w)))) '-'
      (('I' :: 'M' :: 'P' :: 'S' :: x).length + 1) =
      some (y.length + (('I' :: 'M' :: 'P' :: 'S' :: x).length + 1)) := by
    rw [hshape, pyFindChar_after]
    rw [pyFindCharAux_append '-' y (z ++ '-' :: w) hy]
    rfl
  have find3 : pyFindChar
      ('I' :: 'M' :: 'P' :: 'S' :: (x ++ '-' :: (y ++ '-' :: (z ++ '-' :: w)))) '-'
      ((y.length + (('I' :: 'M' :: 'P' :: 'S' :: x).length + 1)) + 1) =
      some (z.length + ((y.length + (('I' :: 'M' :: 'P' :: 'S' :: x).length + 1)) + 1)) := by
    rw [hB2, hshape2, pyFindChar_after]
    rw [pyFindCharAux_append '-' z w hz]
    rfl
  simp only [imps_customer_id, hT, hpre, if_true, find1, find2, find3]
  have htake : ('I' :: 'M' :: 'P' :: 'S' :: (x ++ '-' :: (y ++ '-' :: (z ++ '-' :: w)))).take
      (z.length + ((y.length + (('I' :: 'M' :: 'P' :: 'S' :: x).length + 1)) + 1)) =
      (('I' :: 'M' :: 'P' :: 'S' :: x) ++ '-' :: y) ++ '-' :: z := by
    rw [hB2, hshape2]
    exact take_before_second _ _ _ '-'
  rw [htake, hB2, drop_succ_append]

theorem imps_two_dash (x y z : List Char) (hx : '-' ∉ x) (hy : '-' ∉ y) (hz : '-' ∉ z)
    (hT : pyStrip ('I' :: 'M' :: 'P' :: 'S' :: (x ++ '-' :: (y ++ '-' :: z))) =
      'I' :: 'M' :: 'P' :: 'S' :: (x ++ '-' :: (y ++ '-' :: z))) :
    imps_customer_id ('I' :: 'M' :: 'P' :: 'S' :: (x ++ '-' :: (y ++ '-' :: z))) =
      some ('I' :: 'M' :: 'P' :: 'S' :: (x ++ '-' :: (y ++ '-' :: z))) := by
  have hA : '-' ∉ ('I' :: 'M' :: 'P' :: 'S' :: x) := by simp [hx]
  have hshape : 'I' :: 'M' :: 'P' :: 'S' :: (x ++ '-' :: (y ++ '-' :: z)) =
      ('I' :: 'M' :: 'P' :: 'S' :: x) ++ '-' :: (y ++ '-' :: z) := by simp
  have hshape2 : 'I' :: 'M' :: 'P' :: 'S' :: (x ++ '-' :: (y ++ '-' :: z)) =
      (('I' :: 'M' :: 'P' :: 'S' :: x) ++ '-' :: y) ++ '-' :: z := by simp
  have hB2 : (y.length + (('I' :: 'M' :: 'P' :: 'S' :: x).length + 1)) + 1 =
      (('I' :: 'M' :: 'P' :: 'S' :: x) ++ '-' :: y).length + 1 := by
    simp
    omega
  have hpre : (("IMPS").toList).isPrefixOf
      (pyUpper ('I' :: 'M' :: 'P' :: 'S' :: (x ++ '-' :: (y ++ '-' :: z)))) = true := by
    simp [pyUpper, List.isPrefixOf]
  have find1 : pyFindChar ('I' :: 'M' :: 'P' :: 'S' :: (x ++ '-' :: (y ++ '-' :: z))) '-' 0 =
      some (('I' :: 'M' :: 'P' :: 'S' :: x).length) := by
    rw [pyFindChar_zero, hshape]
    exact pyFindCharAux_append '-' _ _ hA
  have find2 : pyFindChar ('I' :: 'M' :: 'P' :: 'S' :: (x ++ '-' :: (y ++ '-' :: z))) '-'
      (('I' :: 'M' :: 'P' :: 'S' :: x).length + 1) =
      some (y.length + (('I' :: 'M' :: 'P' :: 'S' :: x).length + 1)) := by
    rw [hshape, pyFindChar_after]
    rw [pyFindCharAux_append '-' y z hy]
    rfl
  have find3 : pyFindChar ('I' :: 'M' :: 'P' :: 'S' :: (x ++ '-' :: (y ++ '-' :: z))) '-'
      ((y.length + (('I' :: 'M' :: 'P' :: 'S' :: x).length + 1)) + 1) = none := by
    rw [hB2, hshape2, pyFindChar_after]
    rw [pyFindCharAux_of_not_mem '-' z hz]
    rfl
  simp only [imps_customer_id, hT, hpre, if_true, find1, find2, find3]

theorem imps_one_dash (x y : List Char) (hx : '-' ∉ x) (hy : '-' ∉ y)
    (hT : pyStrip ('I' :: 'M' :: 'P' :: 'S' :: (x ++ '-' :: y)) =
      'I' :: 'M' :: 'P' :: 'S' :: (x ++ '-' :: y)) :
    imps_customer_id ('I' :: 'M' :: 'P' :: 'S' :: (x ++ '-' :: y)) =
      some ('I' :: 'M' :: 'P' :: 'S' :: (x ++ '-' :: y)) := by
  have hA : '-' ∉ ('I' :: 'M' :: 'P' :: 'S' :: x) := by simp [hx]
  have hshape : 'I' :: 'M' :: 'P' :: 'S' :: (x ++ '-' :: y) =
      ('I' :: 'M' :: 'P' :: 'S' :: x) ++ '-' :: y := by simp
  have hpre : (("IMPS").toList).isPrefixOf
      (pyUpper ('I' :: 'M' :: 'P' :: 'S' :: (x ++ '-' :: y))) = true := by
    simp [pyUpper, List.isPrefixOf]
  have find1 : pyFindChar ('I' :: 'M' :: 'P' :: 'S' :: (x ++ '-' :: y)) '-' 0 =
      some (('I' :: 'M' :: 'P' :: 'S' :: x).length) := by
    rw [pyFindChar_zero, hshape]
    exact pyFindCharAux_append '-' _ _ hA
  have find2 : pyFindChar ('I' :: 'M' :: 'P' :: 'S' :: (x ++ '-' :: y)) '-'
      (('I' :: 'M' :: 'P' :: 'S' :: x).length + 1) = none := by
    rw [hshape, pyFindChar_after]
    rw [pyFindCharAux_of_not_mem '-' y hy]
    rfl
  simp only [imps_customer_id, hT, hpre, if_true, find1, find2]

theorem imps_no_dash (x : List Char) (hx : '-' ∉ x)
    (hT : pyStrip ('I' :: 'M' :: 'P' :: 'S' :: x) = 'I' :: 'M' :: 'P' :: 'S' :: x) :
    imps_customer_id ('I' :: 'M' :: 'P' :: 'S' :: x) =
      some ('I' :: 'M' :: 'P' :: 'S' :: x) := by
  have hA : '-' ∉ ('I' :: 'M' :: 'P' :: 'S' :: x) := by simp [hx]
  have hpre : (("IMPS").toList).isPrefixOf
      (pyUpper ('I' :: 'M' :: 'P' :: 'S' :: x)) = true := by
    simp [pyUpper, List.isPrefixOf]
  have find1 : pyFindChar ('I' :: 'M' :: 'P' :: 'S' :: x) '-' 0 = none := by
    rw [pyFindChar_zero]
    exact pyFindCharAux_of_not_mem '-' _ hA
  simp only [imps_customer_id, hT, hpre, if_true, find1]

/-- Claim C6: for a narration beginning with `"UPI"` or `"NEFT"` the
counterparty identifier is the substring strictly before the second
hyphen, and the whole narration when fewer than two hyphens exist; for a
narration beginning with `"IMPS"` it is the substring strictly between
the second and third hyphen, and the whole narration when the third
hyphen is absent (narrations are taken in the canonical trimmed form of
the data model, `pyStrip n = n`).  Each prefix family is stated over the
decomposition of the narration at its hyphens. -/
theorem c6_counterparty_ids :
    (∀ x y z : List Char, '-' ∉ x → '-' ∉ y →
      pyStrip ('U' :: 'P' :: 'I' :: (x ++ '-' :: (y ++ '-' :: z))) =
        'U' :: 'P' :: 'I' :: (x ++ '-' :: (y ++ '-' :: z)) →
      upi_customer_id ('U' :: 'P' :: 'I' :: (x ++ '-' :: (y ++ '-' :: z))) =
        some ('U' :: 'P' :: 'I' :: (x ++ '-' :: y))) ∧
    (∀ x y : List Char, '-' ∉ x → '-' ∉ y →
      pyStrip ('U' :: 'P' :: 'I' :: (x ++ '-' :: y)) = 'U' :: 'P' :: 'I' :: (x ++ '-' :: y) →
      upi_customer_id ('U' :: 'P' :: 'I' :: (x ++ '-' :: y)) =
        some ('U' :: 'P' :: 'I' :: (x ++ '-' :: y))) ∧
    (∀ x : List Char, '-' ∉ x →
      pyStrip ('U' :: 'P' :: 'I' :: x) = 'U' :: 'P' :: 'I' :: x →
      upi_customer_id ('U' :: 'P' :: 'I' :: x) = some ('U' :: 'P' :: 'I' :: x)) ∧
    (∀ x y z : List Char, '-' ∉ x → '-' ∉ y →
      pyStrip ('N' :: 'E' :: 'F' :: 'T' :: (x ++ '-' :: (y ++ '-' :: z))) =
        'N' :: 'E' :: 'F' :: 'T' :: (x ++ '-' :: (y ++ '-' :: z)) →
      neft_customer_id ('N' :: 'E' :: 'F' :: 'T' :: (x ++ '-' :: (y ++ '-' :: z))) =
        some ('N' :: 'E' :: 'F' :: 'T' :: (x ++ '-' :: y))) ∧
    (∀ x y : List Char, '-' ∉ x → '-' ∉ y →
      pyStrip ('N' :: 'E' :: 'F' :: 'T' :: (x ++ '-' :: y)) =
        'N' :: 'E' :: 'F' :: 'T' :: (x ++ '-' :: y) →
      neft_customer_id ('N' :: 'E' :: 'F' :: 'T' :: (x ++ '-' :: y)) =
        some ('N' :: 'E' :: 'F' :: 'T' :: (x ++ '-' :: y))) ∧
    (∀ x : List Char, '-' ∉ x →
      pyStrip ('N' :: 'E' :: 'F' :: 'T' :: x) = 'N' :: 'E' :: 'F' :: 'T' :: x →
      neft_customer_id ('N' :: 'E' :: 'F' :: 'T' :: x) =
        some ('N' :: 'E' :: 'F' :: 'T' :: x)) ∧
    (∀ x y z w : List Char, '-' ∉ x → '-' ∉ y → '-' ∉ z →
      pyStrip ('I' :: 'M' :: 'P' :: 'S' :: (x ++ '-' :: (y ++ '-' :: (z ++ '-' :: w)))) =
        'I' :: 'M' :: 'P' :: 'S' :: (x ++ '-' :: (y ++ '-' :: (z ++ '-' :: w))) →
      imps_customer_id
          ('I' :: 'M' :: 'P' :: 'S' :: (x ++ '-' :: (y ++ '-' :: (z ++ '-' :: w)))) =
        some z) ∧
    (∀ x y z : List Char, '-' ∉ x → '-' ∉ y → '-' ∉ z →
      pyStrip ('I' :: 'M' :: 'P' :: 'S' :: (x ++ '-' :: (y ++ '-' :: z))) =
        'I' :: 'M' :: 'P' :: 'S' :: (x ++ '-' :: (y ++ '-' :: z)) →
      imps_customer_id ('I' :: 'M' :: 'P' :: 'S' :: (x ++ '-' :: (y ++ '-' :: z))) =
        some ('I' :: 'M' :: 'P' :: 'S' :: (x ++ '-' :: (y ++ '-' :: z)))) ∧
    (∀ x y : List Char, '-' ∉ x → '-' ∉ y →
      pyStrip ('I' :: 'M' :: 'P' :: 'S' :: (x ++ '-' :: y)) =
        'I' :: 'M' :: 'P' :: 'S' :: (x ++ '-' :: y) →
      imps_customer_id ('I' :: 'M' :: 'P' :: 'S' :: (x ++ '-' :: y)) =
        some ('I' :: 'M' :: 'P' :: 'S' :: (x ++ '-' :: y))) ∧
    (∀ x : List Char, '-' ∉ x →
      pyStrip ('I' :: 'M' :: 'P' :: 'S' :: x) = 'I' :: 'M' :: 'P' :: 'S' :: x →
      imps_customer_id ('I' :: 'M' :: 'P' :: 'S' :: x) =
        some ('I' :: 'M' :: 'P' :: 'S' :: x)) :=
  ⟨upi_two_dash, upi_one_dash, upi_no_dash, neft_two_dash, neft_one_dash, neft_no_dash,
   imps_three_dash, imps_two_dash, imps_one_dash, imps_no_dash⟩

theorem c6_witness :
    upi_customer_id (("UPI-JOHN DOE-johndoe@bank-REF123-milk payment").toList) =
      some (("UPI-JOHN DOE").toList) ∧
    imps_customer_id
        (("IMPS-506016885554-REKHA MITTAL-SBIN-XXXXXXX4686-MILK PAYMENT").toList) =
      some (("REKHA MITTAL").toList) := by
  constructor
  · have h := c6_counterparty_ids.1 [] (("JOHN DOE").toList)
      (("johndoe@bank-REF123-milk payment").toList)
      (by decide) (by decide) (by decide)
    exact h.trans (by decide)
  · have h := c6_counterparty_ids.2.2.2.2.2.2.1 [] (("506016885554").toList)
      (("REKHA MITTAL").toList) (("SBIN-XXXXXXX4686-MILK PAYMENT").toList)
      (by decide) (by decide) (by decide) (by decide)
    exact h.trans (by decide)
